import Mathlib

/-!
Verification of the mpv audio filter chain engine (src/audio/filter/af.c)
and the audio playback coordinator (src/player/audio.c).

The C code is shallowly embedded: each filter instance carries its
configuration fields (fmt_in, fmt_out, data) and an opaque REINIT control
callback modelled as a pure function of the proposed input config and the
filter's current output config (the two locations the C callback reads and
writes during AF_CONTROL_REINIT).  The chain's head and tail sentinels are
modelled structurally: the head's data aliases the chain input, the tail's
data aliases the chain's filter_output, exactly as in af_new.
-/

/-- Sample format code. 0 is AF_FORMAT_UNKNOWN. Modelled from the spec:
the format enumeration must distinguish PCM variants and the compressed
passthrough (spdif) family; we let codes 1..9 stand for PCM formats and
codes 10..19 for the spdif family. -/
def AF_FORMAT_UNKNOWN : Nat := 0

/-- Total number of format codes in the model. -/
def AF_FORMAT_COUNT : Nat := 20

/-- Modelled from the spec: af_fmt_is_valid, a format code is valid when it
is a known non-UNKNOWN code. -/
def af_fmt_is_valid (f : Nat) : Bool := 0 < f && f < AF_FORMAT_COUNT

/-- Modelled from the spec: af_fmt_is_spdif, the total predicate picking the
compressed passthrough family (codes 10..19 in the model). -/
def af_fmt_is_spdif (f : Nat) : Bool := 10 ≤ f && f < AF_FORMAT_COUNT

/-- AudioConfig: format + channel map + sample rate (struct mp_audio,
configuration part only). Channel maps are lists of speaker ids. -/
structure AudioConfig where
  format : Nat
  channels : List Nat
  rate : Nat
deriving DecidableEq, Repr

/-- The all-zero configuration (struct mp_audio none = {0}). -/
def nullConfig : AudioConfig := ⟨0, [], 0⟩

/-- Modelled from the spec: validity predicate of an AudioConfig,
format ≠ UNKNOWN ∧ channels non-empty ∧ rate > 0. -/
def mp_audio_config_valid (a : AudioConfig) : Bool :=
  decide (a.format ≠ AF_FORMAT_UNKNOWN) && !a.channels.isEmpty && decide (0 < a.rate)

/-- Modelled from the spec: mp_chmap_equals_reordered, channel maps equal up
to reordering (multiset equality, via per-element counts). -/
def mp_chmap_equals_reordered (a b : List Nat) : Bool :=
  decide (a.length = b.length) && a.all (fun x => a.count x = b.count x)

/-- Embedding of af_copy_unset_fields: any UNKNOWN/empty/zero field of dst
is filled from src. -/
def af_copy_unset_fields (dst src : AudioConfig) : AudioConfig :=
  let d1 := if dst.format = AF_FORMAT_UNKNOWN then { dst with format := src.format } else dst
  let d2 := if d1.channels.isEmpty then { d1 with channels := src.channels } else d1
  if d2.rate = 0 then { d2 with rate := src.rate } else d2

/-- Result codes of filter controls and of negotiation steps
(AF_DETACH / AF_OK / AF_FALSE / AF_UNKNOWN / AF_ERROR). -/
inductive AfResult where
  | DETACH
  | OK
  | FALSE
  | UNKNOWN
  | ERROR
deriving DecidableEq, Repr

/-- The behaviour of a filter's REINIT control: given the proposed input
config (the in argument) and the filter's current output config (af->data),
it yields a result code, the possibly mutated input config, and the
possibly mutated output config. -/
def Ctrl := AudioConfig → AudioConfig → AfResult × AudioConfig × AudioConfig

/-- A non-sentinel filter instance (struct af_instance, negotiation part). -/
structure AFInstance where
  label : Option String := none
  auto_inserted : Bool := false
  fmt_in : AudioConfig := nullConfig
  fmt_out : AudioConfig := nullConfig
  data : AudioConfig := nullConfig
  ctrl : Ctrl

/-- Embedding of filter_reinit (af.c) for a non-sentinel filter, given the
predecessor's output config prev->data (mp_audio_set_null_data only clears
sample buffers, which the model does not carry). -/
def filter_reinit (pd : AudioConfig) (af : AFInstance) : AfResult × AFInstance :=
  if mp_audio_config_valid pd then
    let r := af.ctrl pd af.data
    let rv := if r.1 = AfResult.OK ∧ ¬(r.2.1 = pd) then AfResult.FALSE else r.1
    let af2 : AFInstance :=
      { af with fmt_in := if rv = AfResult.FALSE then r.2.1 else pd, data := r.2.2 }
    if rv = AfResult.OK then
      (if mp_audio_config_valid r.2.2 then (AfResult.OK, { af2 with fmt_out := r.2.2 })
       else (AfResult.ERROR, af2))
    else (rv, af2)
  else (AfResult.ERROR, af)

/-- Embedding of filter_reinit applied to the tail sentinel, whose control
is output_control and whose data aliases the chain's filter_output.  The
arguments are the predecessor's output config, the chain's requested output,
and the current filter_output / tail fmt_in / tail fmt_out; the result
carries the updated three. -/
def filter_reinit_out (pd output fo li lo : AudioConfig) :
    AfResult × AudioConfig × AudioConfig × AudioConfig :=
  if mp_audio_config_valid pd then
    let fo1 := af_copy_unset_fields output pd
    if fo1 = pd then
      (if mp_audio_config_valid fo1 then (AfResult.OK, fo1, pd, fo1)
       else (AfResult.ERROR, fo1, pd, lo))
    else (AfResult.FALSE, fo1, fo1, lo)
  else (AfResult.ERROR, fo, li, lo)

/-- Case equation: an invalid predecessor output makes filter_reinit fail
without touching the filter. -/
theorem filter_reinit_invalid {pd : AudioConfig} (af : AFInstance)
    (h : mp_audio_config_valid pd = false) :
    filter_reinit pd af = (AfResult.ERROR, af) := by
  simp [filter_reinit, h]

/-- Case equation: the FALSE outcome of filter_reinit, covering both the raw
AF_FALSE answer and the promotion of an input-mutating AF_OK. -/
theorem filter_reinit_false_eq {pd : AudioConfig} (af : AFInstance)
    (h : mp_audio_config_valid pd = true)
    (hf : (af.ctrl pd af.data).1 = AfResult.FALSE ∨
      ((af.ctrl pd af.data).1 = AfResult.OK ∧ ¬((af.ctrl pd af.data).2.1 = pd))) :
    filter_reinit pd af =
      (AfResult.FALSE,
        { af with fmt_in := (af.ctrl pd af.data).2.1, data := (af.ctrl pd af.data).2.2 }) := by
  rcases hf with hf | ⟨hok, hne⟩
  · have hno : ¬((af.ctrl pd af.data).1 = AfResult.OK ∧ ¬((af.ctrl pd af.data).2.1 = pd)) := by
      simp [hf]
    simp [filter_reinit, h, hno, hf]
  · simp [filter_reinit, h, hok, hne]

/-- Case equation: the clean AF_OK outcome with a valid produced output. -/
theorem filter_reinit_ok_eq {pd : AudioConfig} (af : AFInstance)
    (h : mp_audio_config_valid pd = true)
    (hok : (af.ctrl pd af.data).1 = AfResult.OK)
    (heq : (af.ctrl pd af.data).2.1 = pd)
    (hv : mp_audio_config_valid (af.ctrl pd af.data).2.2 = true) :
    filter_reinit pd af =
      (AfResult.OK,
        { af with fmt_in := pd, data := (af.ctrl pd af.data).2.2,
                  fmt_out := (af.ctrl pd af.data).2.2 }) := by
  simp [filter_reinit, h, hok, heq, hv]

/-- Case equation: AF_OK with an invalid produced output degrades to error. -/
theorem filter_reinit_ok_invalid_eq {pd : AudioConfig} (af : AFInstance)
    (h : mp_audio_config_valid pd = true)
    (hok : (af.ctrl pd af.data).1 = AfResult.OK)
    (heq : (af.ctrl pd af.data).2.1 = pd)
    (hv : mp_audio_config_valid (af.ctrl pd af.data).2.2 = false) :
    filter_reinit pd af =
      (AfResult.ERROR,
        { af with fmt_in := pd, data := (af.ctrl pd af.data).2.2 }) := by
  simp [filter_reinit, h, hok, heq, hv]

/-- Case equation: DETACH, UNKNOWN and ERROR control answers pass through. -/
theorem filter_reinit_other_eq {pd : AudioConfig} (af : AFInstance)
    (h : mp_audio_config_valid pd = true)
    (hr : (af.ctrl pd af.data).1 = AfResult.DETACH ∨
      (af.ctrl pd af.data).1 = AfResult.UNKNOWN ∨
      (af.ctrl pd af.data).1 = AfResult.ERROR) :
    filter_reinit pd af =
      ((af.ctrl pd af.data).1,
        { af with fmt_in := pd, data := (af.ctrl pd af.data).2.2 }) := by
  rcases hr with hr | hr | hr <;> simp [filter_reinit, hr, h]

/-- The claim C3 properties of filter_reinit, stated over the embedding.
Here pd is the predecessor's output configuration prev->data. -/
theorem c3_filter_reinit_spec (pd : AudioConfig) (af : AFInstance) :
    (mp_audio_config_valid pd = false → filter_reinit pd af = (AfResult.ERROR, af)) ∧
    (mp_audio_config_valid pd = true →
      (af.ctrl pd af.data).1 = AfResult.OK → (af.ctrl pd af.data).2.1 ≠ pd →
      (filter_reinit pd af).1 = AfResult.FALSE) ∧
    (mp_audio_config_valid pd = true →
      (filter_reinit pd af).1 = AfResult.FALSE →
      (filter_reinit pd af).2.fmt_in = (af.ctrl pd af.data).2.1) ∧
    (mp_audio_config_valid pd = true →
      (af.ctrl pd af.data).1 = AfResult.OK → (af.ctrl pd af.data).2.1 = pd →
      (if mp_audio_config_valid (af.ctrl pd af.data).2.2 then
        (filter_reinit pd af).1 = AfResult.OK ∧
        (filter_reinit pd af).2.fmt_out = (af.ctrl pd af.data).2.2
       else (filter_reinit pd af).1 = AfResult.ERROR)) := by
  refine ⟨fun h => filter_reinit_invalid af h, ?_, ?_, ?_⟩
  · intro h hok hne
    rw [filter_reinit_false_eq af h (Or.inr ⟨hok, hne⟩)]
  · intro h hf
    by_cases hne : (af.ctrl pd af.data).2.1 = pd
    · rcases hok : (af.ctrl pd af.data).1 with _ | _ | _ | _ | _
      · rw [filter_reinit_other_eq af h (Or.inl hok)] at hf
        simp [hok] at hf
      · by_cases hv : mp_audio_config_valid (af.ctrl pd af.data).2.2 = true
        · rw [filter_reinit_ok_eq af h hok hne hv] at hf
          simp at hf
        · rw [filter_reinit_ok_invalid_eq af h hok hne
            (by simpa using hv)] at hf
          simp at hf
      · rw [filter_reinit_false_eq af h (Or.inl hok)]
      · rw [filter_reinit_other_eq af h (Or.inr (Or.inl hok))] at hf
        simp [hok] at hf
      · rw [filter_reinit_other_eq af h (Or.inr (Or.inr hok))] at hf
        simp [hok] at hf
    · rcases hok : (af.ctrl pd af.data).1 with _ | _ | _ | _ | _
      · rw [filter_reinit_other_eq af h (Or.inl hok)] at hf
        simp [hok] at hf
      · rw [filter_reinit_false_eq af h (Or.inr ⟨hok, hne⟩)]
      · rw [filter_reinit_false_eq af h (Or.inl hok)]
      · rw [filter_reinit_other_eq af h (Or.inr (Or.inl hok))] at hf
        simp [hok] at hf
      · rw [filter_reinit_other_eq af h (Or.inr (Or.inr hok))] at hf
        simp [hok] at hf
  · intro h hok heq
    by_cases hv : mp_audio_config_valid (af.ctrl pd af.data).2.2 = true
    · rw [if_pos hv, filter_reinit_ok_eq af h hok heq hv]
      exact ⟨rfl, rfl⟩
    · rw [if_neg hv, filter_reinit_ok_invalid_eq af h hok heq (by simpa using hv)]

/-- The static environment of negotiation: the outcome of creating a fresh
"lavrresample" conversion filter (af_create; none models creation failure),
i.e. the control behaviour the new instance would have. -/
structure AfEnv where
  mkConv : Option Ctrl

/-- A freshly created auto-inserted conversion filter with its output
pinned to cfg (af_prepend + auto_inserted = true + mp_audio_copy_config of
new->data; talloc_zero leaves the other configs null). -/
def convInstance (c : Ctrl) (cfg : AudioConfig) : AFInstance :=
  { auto_inserted := true, data := cfg, ctrl := c }

/-- The output config of the predecessor of the current filter during the
reinit walk: pre lists the already processed filters nearest-first, and the
head sentinel's data is the chain input. -/
def prevData (input : AudioConfig) : List AFInstance → AudioConfig
  | [] => input
  | p :: _ => p.data

/-- Second half of filter_reinit_with_conversion: after the optional
renegotiation of the predecessor (whose result code is rv), try inserting an
auto conversion filter and re-run filter_reinit on af.  i is the input
config af asked for. -/
def firc_ins (env : AfEnv) (input : AudioConfig) (pre : List AFInstance)
    (af : AFInstance) (rv : AfResult) (i : AudioConfig) :
    AfResult × List AFInstance × AFInstance :=
  if prevData input pre = i then
    (if rv = AfResult.OK then
      let rf := filter_reinit (prevData input pre) af
      (rf.1, pre, rf.2)
     else (rv, pre, af))
  else
    match env.mkConv with
    | none => (AfResult.ERROR, pre, af)
    | some c =>
      let rn := filter_reinit (prevData input pre) (convInstance c i)
      if rn.1 = AfResult.OK then
        let rf := filter_reinit (prevData input (rn.2 :: pre)) af
        (rf.1, rn.2 :: pre, rf.2)
      else (rn.1, pre, af)

/-- Conversion phase of filter_reinit_with_conversion, entered when the
first filter_reinit on af answered AF_FALSE: first try to renegotiate the
predecessor's output towards af.fmt_in, then fall through to firc_ins. -/
def firc_conv (env : AfEnv) (input : AudioConfig) (pre : List AFInstance)
    (af : AFInstance) : AfResult × List AFInstance × AFInstance :=
  let i := af.fmt_in
  match pre with
  | [] => firc_ins env input [] af AfResult.FALSE i
  | p :: rest =>
    if p.data = i then firc_ins env input (p :: rest) af AfResult.FALSE i
    else
      let rr := filter_reinit (prevData input rest) { p with data := i }
      if rr.1 = AfResult.OK then firc_ins env input (rr.2 :: rest) af AfResult.OK i
      else (rr.1, rr.2 :: rest, af)

/-- Embedding of filter_reinit_with_conversion for a middle filter. -/
def firc (env : AfEnv) (input : AudioConfig) (pre : List AFInstance)
    (af : AFInstance) : AfResult × List AFInstance × AFInstance :=
  let r0 := filter_reinit (prevData input pre) af
  if r0.1 = AfResult.FALSE then firc_conv env input pre r0.2
  else (r0.1, pre, r0.2)

/-- The chain fields the tail sentinel reinit touches: the chain's
filter_output (aliased by last->data) and the sentinel's fmt_in/fmt_out. -/
structure TailSt where
  fo : AudioConfig
  li : AudioConfig
  lo : AudioConfig
deriving DecidableEq, Repr

/-- firc_ins specialised to the tail sentinel (whose control is
output_control). -/
def firc_ins_out (env : AfEnv) (input output : AudioConfig)
    (pre : List AFInstance) (t : TailSt) (rv : AfResult) (i : AudioConfig) :
    AfResult × List AFInstance × TailSt :=
  if prevData input pre = i then
    (if rv = AfResult.OK then
      let rf := filter_reinit_out (prevData input pre) output t.fo t.li t.lo
      (rf.1, pre, ⟨rf.2.1, rf.2.2.1, rf.2.2.2⟩)
     else (rv, pre, t))
  else
    match env.mkConv with
    | none => (AfResult.ERROR, pre, t)
    | some c =>
      let rn := filter_reinit (prevData input pre) (convInstance c i)
      if rn.1 = AfResult.OK then
        let rf := filter_reinit_out (prevData input (rn.2 :: pre)) output t.fo t.li t.lo
        (rf.1, rn.2 :: pre, ⟨rf.2.1, rf.2.2.1, rf.2.2.2⟩)
      else (rn.1, pre, t)

/-- firc_conv specialised to the tail sentinel. -/
def firc_conv_out (env : AfEnv) (input output : AudioConfig)
    (pre : List AFInstance) (t : TailSt) : AfResult × List AFInstance × TailSt :=
  let i := t.li
  match pre with
  | [] => firc_ins_out env input output [] t AfResult.FALSE i
  | p :: rest =>
    if p.data = i then firc_ins_out env input output (p :: rest) t AfResult.FALSE i
    else
      let rr := filter_reinit (prevData input rest) { p with data := i }
      if rr.1 = AfResult.OK then
        firc_ins_out env input output (rr.2 :: rest) t AfResult.OK i
      else (rr.1, rr.2 :: rest, t)

/-- filter_reinit_with_conversion applied to the tail sentinel. -/
def firc_out (env : AfEnv) (input output : AudioConfig)
    (pre : List AFInstance) (t : TailSt) : AfResult × List AFInstance × TailSt :=
  let r0 := filter_reinit_out (prevData input pre) output t.fo t.li t.lo
  let t1 : TailSt := ⟨r0.2.1, r0.2.2.1, r0.2.2.2⟩
  if r0.1 = AfResult.FALSE then firc_conv_out env input output pre t1
  else (r0.1, pre, t1)

/-- The tail step of the af_do_reinit walk.  On AF_DETACH the C code calls
af_remove on a sentinel (a no-op) and loops on the same filter, hence the
fuel.  AF_FALSE always fails here because the tail has no successor. -/
def walk_tail (env : AfEnv) (input output : AudioConfig) :
    Nat → List AFInstance → TailSt → Option (Bool × List AFInstance × TailSt)
  | 0, _, _ => none
  | fuel + 1, pre, t =>
    let r := firc_out env input output pre t
    match r.1 with
    | AfResult.OK => some (true, r.2.1.reverse, r.2.2)
    | AfResult.DETACH => walk_tail env input output fuel r.2.1 r.2.2
    | _ => some (false, r.2.1.reverse, r.2.2)

/-- The middle-filter walk of af_do_reinit: process rem left to right,
pushing accepted filters onto pre; on AF_FALSE apply the spdif-mismatch
exception; the returned list holds the final middle filters in chain
order. -/
def walk_mid (env : AfEnv) (input output : AudioConfig) (fuel : Nat) :
    List AFInstance → List AFInstance → TailSt → Option (Bool × List AFInstance × TailSt)
  | pre, [], t => walk_tail env input output fuel pre t
  | pre, f :: rest, t =>
    let r := firc env input pre f
    match r.1 with
    | AfResult.OK => walk_mid env input output fuel (r.2.2 :: r.2.1) rest t
    | AfResult.FALSE =>
      let f1 := (prevData input r.2.1).format
      let f2 := r.2.2.fmt_in.format
      if af_fmt_is_valid f1 && af_fmt_is_valid f2 &&
          (af_fmt_is_spdif f1 != af_fmt_is_spdif f2) then
        walk_mid env input output fuel r.2.1 rest t
      else some (false, r.2.1.reverse ++ r.2.2 :: rest, t)
    | AfResult.DETACH => walk_mid env input output fuel r.2.1 rest t
    | _ => some (false, r.2.1.reverse ++ r.2.2 :: rest, t)

/-- The audio filter chain (struct af_stream).  The head sentinel's data
aliases input, the tail sentinel's data aliases filter_output; the
sentinels' fmt_in/fmt_out are stored explicitly. -/
structure AFStream where
  input : AudioConfig
  output : AudioConfig
  filter_output : AudioConfig
  first_fmt_in : AudioConfig
  first_fmt_out : AudioConfig
  last_fmt_in : AudioConfig
  last_fmt_out : AudioConfig
  middle : List AFInstance
  initialized : Int

/-- Embedding of af_find_output_conversion.  The two C asserts (valid
requested output and initialized > 0) are modelled as the none outcome. -/
def af_find_output_conversion (s : AFStream) : Option (AfResult × AudioConfig) :=
  if !(mp_audio_config_valid s.output && decide (0 < s.initialized)) then none
  else if mp_chmap_equals_reordered s.input.channels s.output.channels then
    some (AfResult.ERROR, nullConfig)
  else
    match s.middle.getLast? with
    | none => some (AfResult.ERROR, nullConfig)
    | some conv =>
      if !conv.auto_inserted then some (AfResult.ERROR, nullConfig)
      else if !(mp_chmap_equals_reordered conv.fmt_in.channels s.input.channels &&
          mp_chmap_equals_reordered conv.fmt_out.channels s.output.channels) then
        some (AfResult.ERROR, nullConfig)
      else if !(s.middle.dropLast.all fun af =>
          !(af.auto_inserted && !mp_chmap_equals_reordered af.fmt_in.channels af.fmt_out.channels)) then
        some (AfResult.ERROR, nullConfig)
      else if s.middle.length = 1 then some (AfResult.ERROR, nullConfig)
      else some (AfResult.OK, s.output)

/-- The walk phase of af_do_reinit plus the closing copy_unset_fields check
and the initialized updates at the success / error labels. -/
def af_do_reinit_walk (env : AfEnv) (s : AFStream) (fuel : Nat) :
    Option (AfResult × AFStream) :=
  match walk_mid env s.input s.output fuel [] s.middle ⟨s.filter_output, s.last_fmt_in, s.last_fmt_out⟩ with
  | none => none
  | some (ok, ms, t) =>
    let s1 : AFStream :=
      { s with middle := ms, filter_output := t.fo, last_fmt_in := t.li, last_fmt_out := t.lo }
    if ok then
      let out2 := af_copy_unset_fields s1.output t.fo
      if out2 = t.fo then some (AfResult.OK, { s1 with output := out2, initialized := 1 })
      else some (AfResult.ERROR, { s1 with output := out2, initialized := -1 })
    else some (AfResult.ERROR, { s1 with initialized := -1 })

/-- Body of af_do_reinit once convert_early is known: remove auto-inserted
filters, reset formats, seed the head sentinel, optionally insert the early
conversion filter, then walk.  Note that the two early-conversion failure
exits return AF_ERROR without going through the error label. -/
def af_do_reinit_main (env : AfEnv) (s : AFStream) (convert_early : AudioConfig)
    (fuel : Nat) : Option (AfResult × AFStream) :=
  let ms := (s.middle.filter fun af => !af.auto_inserted).map fun af => { af with data := nullConfig }
  let s1 : AFStream := { s with middle := ms, first_fmt_in := s.input, first_fmt_out := s.input }
  if mp_audio_config_valid convert_early then
    match env.mkConv with
    | none => some (AfResult.ERROR, s1)
    | some c =>
      let rn := filter_reinit s1.input (convInstance c convert_early)
      let s2 : AFStream := { s1 with middle := rn.2 :: ms }
      if rn.1 ≠ AfResult.DETACH ∧ rn.1 ≠ AfResult.OK then some (AfResult.ERROR, s2)
      else af_do_reinit_walk env s2 fuel
  else af_do_reinit_walk env s1 fuel

/-- Embedding of af_do_reinit. -/
def af_do_reinit (env : AfEnv) (s : AFStream) (second : Bool) (fuel : Nat) :
    Option (AfResult × AFStream) :=
  if second then
    match af_find_output_conversion s with
    | none => none
    | some (r, ce) =>
      if r ≠ AfResult.OK then some (AfResult.OK, s)
      else af_do_reinit_main env s ce fuel
  else af_do_reinit_main env s nullConfig fuel

/-- Embedding of af_reinit: first pass, then on success with a valid output
the second pass, reverting to a fresh first pass if the second fails. -/
def af_reinit (env : AfEnv) (s : AFStream) (fuel : Nat) :
    Option (AfResult × AFStream) :=
  match af_do_reinit env s false fuel with
  | none => none
  | some (r, s1) =>
    if r = AfResult.OK ∧ mp_audio_config_valid s1.output = true then
      match af_do_reinit env s1 true fuel with
      | none => none
      | some (r2, s2) =>
        if r2 ≠ AfResult.OK then af_do_reinit env s2 false fuel
        else some (r2, s2)
    else some (r, s1)

/-- Embedding of af_uninit: remove every non-sentinel filter, drop queued
frames and mark the chain uninitialised. -/
def af_uninit (s : AFStream) : AFStream :=
  { s with middle := [], initialized := 0 }

/-- One entry of the user's configured filter list (opts->af_settings):
whether it is enabled, its label, and the outcome of af_create for it. -/
structure AfSetting where
  enabled : Bool
  label : Option String
  inst : Option AFInstance

/-- The environment of af_init: the conversion-filter factory plus the
configured filter list. -/
structure InitEnv where
  env : AfEnv
  settings : List AfSetting

/-- Build the user filter list for af_init; none if some af_prepend fails. -/
def af_init_build : List AfSetting → Option (List AFInstance)
  | [] => some []
  | e :: rest =>
    if e.enabled then
      match e.inst with
      | none => none
      | some inst => (af_init_build rest).map fun l => { inst with label := e.label } :: l
    else af_init_build rest

/-- Embedding of af_init: on an empty chain, populate it from the settings
(a creation failure uninits the chain, marks it errored and returns -1),
then run af_reinit; non-OK reinit yields -1, success yields 0. -/
def af_init (ie : InitEnv) (s : AFStream) (fuel : Nat) : Option (Int × AFStream) :=
  if s.middle.isEmpty then
    match af_init_build ie.settings with
    | none => some (-1, { af_uninit s with initialized := -1 })
    | some ms =>
      (af_reinit ie.env { s with middle := ms } fuel).map fun p =>
        if p.1 ≠ AfResult.OK then (-1, p.2) else (0, p.2)
  else
    (af_reinit ie.env s fuel).map fun p =>
      if p.1 ≠ AfResult.OK then (-1, p.2) else (0, p.2)

/-- Embedding of af_find_by_label: linear scan from the head; the sentinels
never carry a label. -/
def af_find_by_label (s : AFStream) (label : String) : Option AFInstance :=
  s.middle.find? fun af => af.label = some label

/-- Drop the first filter bearing the given label. -/
def removeFirstLabel (label : String) : List AFInstance → List AFInstance
  | [] => []
  | f :: rest => if f.label = some label then rest else f :: removeFirstLabel label rest

/-- Embedding of af_remove_by_label: 0 when no filter matches, 1 when the
removal and the subsequent reinit succeed, and -1 (after a full af_uninit +
af_init) when the reinit fails. -/
def af_remove_by_label (ie : InitEnv) (s : AFStream) (label : String) (fuel : Nat) :
    Option (Int × AFStream) :=
  match af_find_by_label s label with
  | none => some (0, s)
  | some _ =>
    let s1 : AFStream := { s with middle := removeFirstLabel label s.middle }
    match af_reinit ie.env s1 fuel with
    | none => none
    | some (r, s2) =>
      if r ≠ AfResult.OK then
        (af_init ie (af_uninit s2) fuel).map fun p => (-1, p.2)
      else some (1, s2)

/-- Embedding of af_add.  inst? is the outcome of af_create for the given
name and arguments; the new filter is inserted before the tail sentinel and
given the label, then the chain is renegotiated. -/
def af_add (ie : InitEnv) (s : AFStream) (label : String) (inst? : Option AFInstance)
    (fuel : Nat) : Option (Option AFInstance × AFStream) :=
  if (af_find_by_label s label).isSome then some (none, s)
  else
    match inst? with
    | none => some (none, s)
    | some inst =>
      let s1 : AFStream := { s with middle := s.middle ++ [{ inst with label := some label }] }
      match af_reinit ie.env s1 fuel with
      | none => none
      | some (r, s2) =>
        if r ≠ AfResult.OK then
          (af_remove_by_label ie s2 label fuel).map fun p => (none, p.2)
        else some (af_find_by_label s2 label, s2)

/-- Consistency of the processed prefix of the reinit walk (nearest filter
first): every filter's fmt_in matches its predecessor's output config and
its fmt_out matches its own output config. -/
def consRev (input : AudioConfig) : List AFInstance → Bool
  | [] => true
  | g :: rest =>
    decide (g.fmt_in = prevData input rest) && decide (g.fmt_out = g.data) &&
      consRev input rest

/-- Adjacent-format agreement along a chain given the head sentinel's
fmt_out and the tail sentinel's fmt_in. -/
def chainAdj (prevOut : AudioConfig) : List AFInstance → AudioConfig → Bool
  | [], tailIn => decide (prevOut = tailIn)
  | f :: rest, tailIn => decide (prevOut = f.fmt_in) && chainAdj f.fmt_out rest tailIn

/-- The claim C1 invariant: every adjacent pair of filters, sentinels
included, agrees on the configuration crossing the boundary. -/
def adjacentOK (s : AFStream) : Bool :=
  chainAdj s.first_fmt_out s.middle s.last_fmt_in

/-- The behavioural contract on REINIT controls under which the adjacency
invariant holds: a control never answers DETACH, and only rewrites the
filter's output config when it accepts the proposed input unchanged. -/
def CtrlOK (c : Ctrl) : Prop :=
  ∀ i d, (c i d).1 ≠ AfResult.DETACH ∧
    (((c i d).1 = AfResult.OK ∧ (c i d).2.1 = i) ∨ (c i d).2.2 = d)

/-- All controls appearing in a filter list satisfy the contract. -/
def PreOK (l : List AFInstance) : Prop := ∀ g ∈ l, CtrlOK g.ctrl

/-- The conversion-filter factory, if any, satisfies the contract. -/
def EnvOK (env : AfEnv) : Prop := ∀ c, env.mkConv = some c → CtrlOK c

/-- filter_reinit only rewrites configuration fields, never the control. -/
theorem filter_reinit_ctrl (pd : AudioConfig) (af : AFInstance) :
    ((filter_reinit pd af).2).ctrl = af.ctrl := by
  simp only [filter_reinit]
  repeat' split
  all_goals rfl

/-- Under the control contract, filter_reinit never answers DETACH. -/
theorem filter_reinit_ne_detach {pd : AudioConfig} {af : AFInstance}
    (hc : CtrlOK af.ctrl) : (filter_reinit pd af).1 ≠ AfResult.DETACH := by
  have hd := (hc pd af.data).1
  simp only [filter_reinit]
  repeat' split
  all_goals simp_all

/-- An AF_OK answer of filter_reinit pins fmt_in to the predecessor's output
and fmt_out to the filter's own produced output. -/
theorem filter_reinit_ok_fmt {pd : AudioConfig} {af : AFInstance}
    (h : (filter_reinit pd af).1 = AfResult.OK) :
    (filter_reinit pd af).2.fmt_in = pd ∧
      (filter_reinit pd af).2.fmt_out = (filter_reinit pd af).2.data := by
  simp only [filter_reinit] at h ⊢
  repeat' split at h
  all_goals repeat' split
  all_goals simp_all

/-- Under the control contract, an AF_FALSE answer of filter_reinit leaves
the filter's output config untouched. -/
theorem filter_reinit_false_data {pd : AudioConfig} {af : AFInstance}
    (hc : CtrlOK af.ctrl) (h : (filter_reinit pd af).1 = AfResult.FALSE) :
    (filter_reinit pd af).2.data = af.data := by
  rcases (hc pd af.data).2 with ⟨hok, hi⟩ | hdd
  · simp only [filter_reinit] at h ⊢
    repeat' split at h
    all_goals repeat' split
    all_goals simp_all
  · simp only [filter_reinit] at h ⊢
    repeat' split at h
    all_goals repeat' split
    all_goals simp_all

/-- filter_reinit_out never answers DETACH. -/
theorem filter_reinit_out_ne_detach (pd output fo li lo : AudioConfig) :
    (filter_reinit_out pd output fo li lo).1 ≠ AfResult.DETACH := by
  simp only [filter_reinit_out]
  repeat' split
  all_goals simp

/-- An AF_OK answer of the tail reinit pins the tail's fmt_in to the
predecessor's output. -/
theorem filter_reinit_out_ok {pd output fo li lo : AudioConfig}
    (h : (filter_reinit_out pd output fo li lo).1 = AfResult.OK) :
    (filter_reinit_out pd output fo li lo).2.2.1 = pd := by
  simp only [filter_reinit_out] at h ⊢
  split at h
  case isTrue hv =>
    split at h
    case isTrue he => split at h <;> simp_all
    case isFalse he => simp_all
  case isFalse hv => simp_all

/-- Pushing a freshly accepted filter onto a consistent prefix. -/
theorem consRev_cons {input : AudioConfig} {g : AFInstance} {rest : List AFInstance}
    (h1 : g.fmt_in = prevData input rest) (h2 : g.fmt_out = g.data)
    (h3 : consRev input rest = true) : consRev input (g :: rest) = true := by
  simp [consRev, h1, h2, h3]

/-- chainAdj over a single appended filter. -/
theorem chainAdj_append_single (p : AudioConfig) (l : List AFInstance)
    (g : AFInstance) (t : AudioConfig) :
    chainAdj p (l ++ [g]) t = (chainAdj p l g.fmt_in && decide (g.fmt_out = t)) := by
  induction l generalizing p with
  | nil => simp [chainAdj]
  | cons f rest ih => simp [chainAdj, ih, Bool.and_assoc]

/-- A consistent walk prefix, read back in chain order, satisfies adjacency
up to its own output config. -/
theorem consRev_chainAdj {input : AudioConfig} {pre : List AFInstance}
    (h : consRev input pre = true) :
    chainAdj input pre.reverse (prevData input pre) = true := by
  induction pre with
  | nil => simp [chainAdj, prevData]
  | cons g rest ih =>
    simp only [consRev, Bool.and_eq_true, decide_eq_true_eq] at h
    obtain ⟨⟨h1, h2⟩, h3⟩ := h
    have hrec := ih h3
    simp only [List.reverse_cons, chainAdj_append_single, prevData]
    simp [h1, h2, hrec]

/-- PreOK distributes over cons. -/
theorem PreOK_cons {g : AFInstance} {l : List AFInstance}
    (h1 : CtrlOK g.ctrl) (h2 : PreOK l) : PreOK (g :: l) := by
  intro x hx
  rcases List.mem_cons.1 hx with hx | hx
  · exact hx ▸ h1
  · exact h2 x hx

/-- Head and tail of a PreOK list. -/
theorem PreOK_head {g : AFInstance} {l : List AFInstance} (h : PreOK (g :: l)) :
    CtrlOK g.ctrl := h g (List.mem_cons_self g l)

theorem PreOK_tail {g : AFInstance} {l : List AFInstance} (h : PreOK (g :: l)) :
    PreOK l := fun x hx => h x (List.mem_cons_of_mem g hx)

/-- Tail of a consistent prefix is consistent. -/
theorem consRev_tail {input : AudioConfig} {g : AFInstance} {rest : List AFInstance}
    (h : consRev input (g :: rest) = true) : consRev input rest = true := by
  simp only [consRev, Bool.and_eq_true] at h
  exact h.2

/-- Specification of firc_ins under the control contract: no DETACH, the
contract is preserved, the current filter keeps its control, AF_OK yields a
consistent extended prefix, and AF_FALSE keeps the prefix consistent. -/
theorem firc_ins_spec (env : AfEnv) (input : AudioConfig) (pre : List AFInstance)
    (af : AFInstance) (rv : AfResult) (i : AudioConfig)
    (hc : CtrlOK af.ctrl) (hp : PreOK pre) (he : EnvOK env)
    (hcons : consRev input pre = true)
    (hrv : rv = AfResult.FALSE ∨ rv = AfResult.OK) :
    (firc_ins env input pre af rv i).1 ≠ AfResult.DETACH ∧
    PreOK (firc_ins env input pre af rv i).2.1 ∧
    (firc_ins env input pre af rv i).2.2.ctrl = af.ctrl ∧
    ((firc_ins env input pre af rv i).1 = AfResult.OK →
      consRev input
        ((firc_ins env input pre af rv i).2.2 :: (firc_ins env input pre af rv i).2.1) = true) ∧
    ((firc_ins env input pre af rv i).1 = AfResult.FALSE →
      consRev input (firc_ins env input pre af rv i).2.1 = true) := by
  simp only [firc_ins]
  by_cases hpd : prevData input pre = i
  · rw [if_pos hpd]
    rcases hrv with hrv | hrv
    · subst hrv
      rw [if_neg (by simp)]
      exact ⟨by simp, hp, rfl, by simp, fun _ => hcons⟩
    · subst hrv
      rw [if_pos rfl]
      refine ⟨filter_reinit_ne_detach hc, hp, filter_reinit_ctrl _ _, ?_, fun _ => hcons⟩
      intro hOK
      have hf := filter_reinit_ok_fmt hOK
      exact consRev_cons hf.1 hf.2 hcons
  · rw [if_neg hpd]
    rcases hm : env.mkConv with _ | c
    · dsimp only
      exact ⟨by simp, hp, rfl, by simp, by simp⟩
    · dsimp only
      have hcc : CtrlOK (convInstance c i).ctrl := he c hm
      by_cases hrn : (filter_reinit (prevData input pre) (convInstance c i)).1 = AfResult.OK
      · rw [if_pos hrn]
        have hfn := filter_reinit_ok_fmt hrn
        have hcons2 : consRev input
            ((filter_reinit (prevData input pre) (convInstance c i)).2 :: pre) = true :=
          consRev_cons hfn.1 hfn.2 hcons
        have hp2 : PreOK ((filter_reinit (prevData input pre) (convInstance c i)).2 :: pre) :=
          PreOK_cons (by rw [filter_reinit_ctrl]; exact hcc) hp
        refine ⟨filter_reinit_ne_detach hc, hp2, filter_reinit_ctrl _ _, ?_, fun _ => hcons2⟩
        intro hOK
        have hf := filter_reinit_ok_fmt hOK
        exact consRev_cons hf.1 hf.2 hcons2
      · rw [if_neg hrn]
        refine ⟨filter_reinit_ne_detach hcc, hp, rfl, ?_, fun _ => hcons⟩
        intro hOK
        exact absurd hOK hrn

/-- Specification of firc_conv: as firc_ins, except that after a failed
predecessor renegotiation the AF_FALSE outcome may instead leave the
predecessor's output equal to the filter's desired input. -/
theorem firc_conv_spec (env : AfEnv) (input : AudioConfig) (pre : List AFInstance)
    (af : AFInstance)
    (hc : CtrlOK af.ctrl) (hp : PreOK pre) (he : EnvOK env)
    (hcons : consRev input pre = true) :
    (firc_conv env input pre af).1 ≠ AfResult.DETACH ∧
    PreOK (firc_conv env input pre af).2.1 ∧
    (firc_conv env input pre af).2.2.ctrl = af.ctrl ∧
    ((firc_conv env input pre af).1 = AfResult.OK →
      consRev input ((firc_conv env input pre af).2.2 :: (firc_conv env input pre af).2.1) = true) ∧
    ((firc_conv env input pre af).1 = AfResult.FALSE →
      consRev input (firc_conv env input pre af).2.1 = true ∨
        prevData input (firc_conv env input pre af).2.1 = (firc_conv env input pre af).2.2.fmt_in) := by
  simp only [firc_conv]
  rcases pre with _ | ⟨p, rest⟩
  · dsimp only
    have h := firc_ins_spec env input [] af AfResult.FALSE af.fmt_in hc hp he hcons (Or.inl rfl)
    exact ⟨h.1, h.2.1, h.2.2.1, h.2.2.2.1, fun hf => Or.inl (h.2.2.2.2 hf)⟩
  · dsimp only
    by_cases hpd : p.data = af.fmt_in
    · rw [if_pos hpd]
      have h := firc_ins_spec env input (p :: rest) af AfResult.FALSE af.fmt_in hc hp he hcons (Or.inl rfl)
      exact ⟨h.1, h.2.1, h.2.2.1, h.2.2.2.1, fun hf => Or.inl (h.2.2.2.2 hf)⟩
    · rw [if_neg hpd]
      have hcp : CtrlOK p.ctrl := PreOK_head hp
      by_cases hrr : (filter_reinit (prevData input rest) { p with data := af.fmt_in }).1 = AfResult.OK
      · rw [if_pos hrr]
        have hfr := filter_reinit_ok_fmt hrr
        have hcons2 : consRev input
            ((filter_reinit (prevData input rest) { p with data := af.fmt_in }).2 :: rest) = true :=
          consRev_cons hfr.1 hfr.2 (consRev_tail hcons)
        have hp2 : PreOK
            ((filter_reinit (prevData input rest) { p with data := af.fmt_in }).2 :: rest) :=
          PreOK_cons (by rw [filter_reinit_ctrl]; exact hcp) (PreOK_tail hp)
        have h := firc_ins_spec env input _ af AfResult.OK af.fmt_in hc hp2 he hcons2 (Or.inr rfl)
        exact ⟨h.1, h.2.1, h.2.2.1, h.2.2.2.1, fun hf => Or.inl (h.2.2.2.2 hf)⟩
      · rw [if_neg hrr]
        refine ⟨filter_reinit_ne_detach hcp, ?_, rfl, fun hOK => absurd hOK hrr, ?_⟩
        · exact PreOK_cons (by rw [filter_reinit_ctrl]; exact hcp) (PreOK_tail hp)
        · intro hf
          right
          have hcp2 : CtrlOK ({ p with data := af.fmt_in } : AFInstance).ctrl := hcp
          have hd := filter_reinit_false_data hcp2 hf
          simpa [prevData] using hd

/-- Specification of firc (filter_reinit_with_conversion) for middle
filters, under the control contract. -/
theorem firc_spec (env : AfEnv) (input : AudioConfig) (pre : List AFInstance)
    (af : AFInstance)
    (hc : CtrlOK af.ctrl) (hp : PreOK pre) (he : EnvOK env)
    (hcons : consRev input pre = true) :
    (firc env input pre af).1 ≠ AfResult.DETACH ∧
    PreOK (firc env input pre af).2.1 ∧
    (firc env input pre af).2.2.ctrl = af.ctrl ∧
    ((firc env input pre af).1 = AfResult.OK →
      consRev input ((firc env input pre af).2.2 :: (firc env input pre af).2.1) = true) ∧
    ((firc env input pre af).1 = AfResult.FALSE →
      consRev input (firc env input pre af).2.1 = true ∨
        prevData input (firc env input pre af).2.1 = (firc env input pre af).2.2.fmt_in) := by
  simp only [firc]
  by_cases h0 : (filter_reinit (prevData input pre) af).1 = AfResult.FALSE
  · rw [if_pos h0]
    have hc2 : CtrlOK ((filter_reinit (prevData input pre) af).2).ctrl := by
      rw [filter_reinit_ctrl]; exact hc
    have h := firc_conv_spec env input pre _ hc2 hp he hcons
    exact ⟨h.1, h.2.1, by rw [h.2.2.1, filter_reinit_ctrl], h.2.2.2.1, h.2.2.2.2⟩
  · rw [if_neg h0]
    refine ⟨filter_reinit_ne_detach hc, hp, filter_reinit_ctrl _ _, ?_, fun hf => absurd hf h0⟩
    intro hOK
    have hf := filter_reinit_ok_fmt hOK
    exact consRev_cons hf.1 hf.2 hcons

/-- Specification of firc_ins_out: no DETACH, contract preserved, and an
AF_OK outcome leaves a consistent prefix with the tail's fmt_in equal to
the final predecessor's output. -/
theorem firc_ins_out_spec (env : AfEnv) (input output : AudioConfig)
    (pre : List AFInstance) (t : TailSt) (rv : AfResult) (i : AudioConfig)
    (hp : PreOK pre) (he : EnvOK env) (hcons : consRev input pre = true)
    (hrv : rv = AfResult.FALSE ∨ rv = AfResult.OK) :
    (firc_ins_out env input output pre t rv i).1 ≠ AfResult.DETACH ∧
    PreOK (firc_ins_out env input output pre t rv i).2.1 ∧
    ((firc_ins_out env input output pre t rv i).1 = AfResult.OK →
      consRev input (firc_ins_out env input output pre t rv i).2.1 = true ∧
      (firc_ins_out env input output pre t rv i).2.2.li =
        prevData input (firc_ins_out env input output pre t rv i).2.1) := by
  simp only [firc_ins_out]
  by_cases hpd : prevData input pre = i
  · rw [if_pos hpd]
    rcases hrv with hrv | hrv
    · subst hrv
      rw [if_neg (by simp)]
      exact ⟨by simp, hp, by simp⟩
    · subst hrv
      rw [if_pos rfl]
      refine ⟨filter_reinit_out_ne_detach _ _ _ _ _, hp, ?_⟩
      intro hOK
      exact ⟨hcons, filter_reinit_out_ok hOK⟩
  · rw [if_neg hpd]
    rcases hm : env.mkConv with _ | c
    · dsimp only
      exact ⟨by simp, hp, by simp⟩
    · dsimp only
      have hcc : CtrlOK (convInstance c i).ctrl := he c hm
      by_cases hrn : (filter_reinit (prevData input pre) (convInstance c i)).1 = AfResult.OK
      · rw [if_pos hrn]
        have hfn := filter_reinit_ok_fmt hrn
        have hcons2 : consRev input
            ((filter_reinit (prevData input pre) (convInstance c i)).2 :: pre) = true :=
          consRev_cons hfn.1 hfn.2 hcons
        have hp2 : PreOK ((filter_reinit (prevData input pre) (convInstance c i)).2 :: pre) :=
          PreOK_cons (by rw [filter_reinit_ctrl]; exact hcc) hp
        refine ⟨filter_reinit_out_ne_detach _ _ _ _ _, hp2, ?_⟩
        intro hOK
        exact ⟨hcons2, filter_reinit_out_ok hOK⟩
      · rw [if_neg hrn]
        exact ⟨filter_reinit_ne_detach hcc, hp, fun hOK => absurd hOK hrn⟩

/-- Specification of firc_conv_out. -/
theorem firc_conv_out_spec (env : AfEnv) (input output : AudioConfig)
    (pre : List AFInstance) (t : TailSt)
    (hp : PreOK pre) (he : EnvOK env) (hcons : consRev input pre = true) :
    (firc_conv_out env input output pre t).1 ≠ AfResult.DETACH ∧
    PreOK (firc_conv_out env input output pre t).2.1 ∧
    ((firc_conv_out env input output pre t).1 = AfResult.OK →
      consRev input (firc_conv_out env input output pre t).2.1 = true ∧
      (firc_conv_out env input output pre t).2.2.li =
        prevData input (firc_conv_out env input output pre t).2.1) := by
  simp only [firc_conv_out]
  rcases pre with _ | ⟨p, rest⟩
  · dsimp only
    exact firc_ins_out_spec env input output [] t AfResult.FALSE t.li hp he hcons (Or.inl rfl)
  · dsimp only
    by_cases hpd : p.data = t.li
    · rw [if_pos hpd]
      exact firc_ins_out_spec env input output (p :: rest) t AfResult.FALSE t.li hp he hcons (Or.inl rfl)
    · rw [if_neg hpd]
      have hcp : CtrlOK p.ctrl := PreOK_head hp
      by_cases hrr : (filter_reinit (prevData input rest) { p with data := t.li }).1 = AfResult.OK
      · rw [if_pos hrr]
        have hfr := filter_reinit_ok_fmt hrr
        have hcons2 : consRev input
            ((filter_reinit (prevData input rest) { p with data := t.li }).2 :: rest) = true :=
          consRev_cons hfr.1 hfr.2 (consRev_tail hcons)
        have hp2 : PreOK
            ((filter_reinit (prevData input rest) { p with data := t.li }).2 :: rest) :=
          PreOK_cons (by rw [filter_reinit_ctrl]; exact hcp) (PreOK_tail hp)
        exact firc_ins_out_spec env input output _ t AfResult.OK t.li hp2 he hcons2 (Or.inr rfl)
      · rw [if_neg hrr]
        refine ⟨filter_reinit_ne_detach hcp, ?_, fun hOK => absurd hOK hrr⟩
        exact PreOK_cons (by rw [filter_reinit_ctrl]; exact hcp) (PreOK_tail hp)

/-- Specification of firc_out. -/
theorem firc_out_spec (env : AfEnv) (input output : AudioConfig)
    (pre : List AFInstance) (t : TailSt)
    (hp : PreOK pre) (he : EnvOK env) (hcons : consRev input pre = true) :
    (firc_out env input output pre t).1 ≠ AfResult.DETACH ∧
    PreOK (firc_out env input output pre t).2.1 ∧
    ((firc_out env input output pre t).1 = AfResult.OK →
      consRev input (firc_out env input output pre t).2.1 = true ∧
      (firc_out env input output pre t).2.2.li =
        prevData input (firc_out env input output pre t).2.1) := by
  simp only [firc_out]
  by_cases h0 : (filter_reinit_out (prevData input pre) output t.fo t.li t.lo).1 = AfResult.FALSE
  · rw [if_pos h0]
    exact firc_conv_out_spec env input output pre _ hp he hcons
  · rw [if_neg h0]
    refine ⟨filter_reinit_out_ne_detach _ _ _ _ _, hp, ?_⟩
    intro hOK
    exact ⟨hcons, filter_reinit_out_ok hOK⟩

/-- A successful walk_tail run yields a chain that satisfies adjacency up to
the tail sentinel's fmt_in. -/
theorem walk_tail_adj (env : AfEnv) (input output : AudioConfig) :
    ∀ (fuel : Nat) (pre : List AFInstance) (t : TailSt) (ms : List AFInstance) (t2 : TailSt),
    PreOK pre → EnvOK env → consRev input pre = true →
    walk_tail env input output fuel pre t = some (true, ms, t2) →
    chainAdj input ms t2.li = true := by
  intro fuel
  induction fuel with
  | zero =>
    intro pre t ms t2 _ _ _ h
    simp [walk_tail] at h
  | succ n ih =>
    intro pre t ms t2 hp he hcons h
    have hs := firc_out_spec env input output pre t hp he hcons
    simp only [walk_tail] at h
    rcases hr : (firc_out env input output pre t).1 with _ | _ | _ | _ | _ <;> rw [hr] at h
    · exact absurd hr hs.1
    · dsimp only at h
      obtain ⟨hms, ht2⟩ : (firc_out env input output pre t).2.1.reverse = ms ∧
          (firc_out env input output pre t).2.2 = t2 := by
        simpa using h
      obtain ⟨hc2, hli⟩ := hs.2.2 hr
      rw [← hms, ← ht2, hli]
      exact consRev_chainAdj hc2
    · dsimp only at h
      simp at h
    · dsimp only at h
      simp at h
    · dsimp only at h
      simp at h

/-- A successful middle walk followed by the tail step yields a chain that
satisfies adjacency up to the tail sentinel's fmt_in. -/
theorem walk_mid_adj (env : AfEnv) (input output : AudioConfig) (fuel : Nat) :
    ∀ (rem pre : List AFInstance) (t : TailSt) (ms : List AFInstance) (t2 : TailSt),
    PreOK pre → EnvOK env → consRev input pre = true →
    (∀ f ∈ rem, CtrlOK f.ctrl) →
    walk_mid env input output fuel pre rem t = some (true, ms, t2) →
    chainAdj input ms t2.li = true := by
  intro rem
  induction rem with
  | nil =>
    intro pre t ms t2 hp he hcons _ h
    simp only [walk_mid] at h
    exact walk_tail_adj env input output fuel pre t ms t2 hp he hcons h
  | cons f rest ih =>
    intro pre t ms t2 hp he hcons hrem h
    have hcf : CtrlOK f.ctrl := hrem f (List.mem_cons_self f rest)
    have hrest : ∀ g ∈ rest, CtrlOK g.ctrl := fun g hg => hrem g (List.mem_cons_of_mem f hg)
    have hs := firc_spec env input pre f hcf hp he hcons
    simp only [walk_mid] at h
    rcases hr : (firc env input pre f).1 with _ | _ | _ | _ | _ <;> rw [hr] at h
    · exact absurd hr hs.1
    · dsimp only at h
      have hcons2 := hs.2.2.2.1 hr
      have hp2 : PreOK ((firc env input pre f).2.2 :: (firc env input pre f).2.1) :=
        PreOK_cons (by rw [hs.2.2.1]; exact hcf) hs.2.1
      exact ih _ t ms t2 hp2 he hcons2 hrest h
    · dsimp only at h
      rcases hs.2.2.2.2 hr with hcons2 | hdd
      · split at h
        · exact ih _ t ms t2 hs.2.1 he hcons2 hrest h
        · simp at h
      · rw [hdd] at h
        simp at h
    · dsimp only at h
      simp at h
    · dsimp only at h
      simp at h

/-- PreOK is stable under reversal. -/
theorem PreOK_reverse {l : List AFInstance} (h : PreOK l) : PreOK l.reverse :=
  fun x hx => h x (List.mem_reverse.1 hx)

/-- PreOK is stable under append. -/
theorem PreOK_append {l1 l2 : List AFInstance} (h1 : PreOK l1) (h2 : PreOK l2) :
    PreOK (l1 ++ l2) := by
  intro x hx
  rcases List.mem_append.1 hx with hx | hx
  · exact h1 x hx
  · exact h2 x hx

/-- Every outcome of walk_tail satisfies the control contract. -/
theorem walk_tail_preOK (env : AfEnv) (input output : AudioConfig) :
    ∀ (fuel : Nat) (pre : List AFInstance) (t : TailSt) (b : Bool)
      (ms : List AFInstance) (t2 : TailSt),
    PreOK pre → EnvOK env → consRev input pre = true →
    walk_tail env input output fuel pre t = some (b, ms, t2) → PreOK ms := by
  intro fuel
  induction fuel with
  | zero =>
    intro pre t b ms t2 _ _ _ h
    simp [walk_tail] at h
  | succ n ih =>
    intro pre t b ms t2 hp he hcons h
    have hs := firc_out_spec env input output pre t hp he hcons
    simp only [walk_tail] at h
    rcases hr : (firc_out env input output pre t).1 with _ | _ | _ | _ | _ <;> rw [hr] at h
    · exact absurd hr hs.1
    all_goals
      dsimp only at h
      obtain ⟨-, hms, -⟩ : b = _ ∧ (firc_out env input output pre t).2.1.reverse = ms ∧
          (firc_out env input output pre t).2.2 = t2 := by simpa using h
      exact hms ▸ PreOK_reverse hs.2.1

/-- Every outcome of walk_mid satisfies the control contract. -/
theorem walk_mid_preOK (env : AfEnv) (input output : AudioConfig) (fuel : Nat) :
    ∀ (rem pre : List AFInstance) (t : TailSt) (b : Bool)
      (ms : List AFInstance) (t2 : TailSt),
    PreOK pre → EnvOK env → consRev input pre = true →
    (∀ f ∈ rem, CtrlOK f.ctrl) →
    walk_mid env input output fuel pre rem t = some (b, ms, t2) → PreOK ms := by
  intro rem
  induction rem with
  | nil =>
    intro pre t b ms t2 hp he hcons _ h
    simp only [walk_mid] at h
    exact walk_tail_preOK env input output fuel pre t b ms t2 hp he hcons h
  | cons f rest ih =>
    intro pre t b ms t2 hp he hcons hrem h
    have hcf : CtrlOK f.ctrl := hrem f (List.mem_cons_self f rest)
    have hrest : ∀ g ∈ rest, CtrlOK g.ctrl := fun g hg => hrem g (List.mem_cons_of_mem f hg)
    have hs := firc_spec env input pre f hcf hp he hcons
    have herr : PreOK ((firc env input pre f).2.1.reverse ++ (firc env input pre f).2.2 :: rest) :=
      PreOK_append (PreOK_reverse hs.2.1)
        (PreOK_cons (by rw [hs.2.2.1]; exact hcf) hrest)
    simp only [walk_mid] at h
    rcases hr : (firc env input pre f).1 with _ | _ | _ | _ | _ <;> rw [hr] at h
    · exact absurd hr hs.1
    · dsimp only at h
      have hcons2 := hs.2.2.2.1 hr
      have hp2 : PreOK ((firc env input pre f).2.2 :: (firc env input pre f).2.1) :=
        PreOK_cons (by rw [hs.2.2.1]; exact hcf) hs.2.1
      exact ih _ t b ms t2 hp2 he hcons2 hrest h
    · dsimp only at h
      rcases hs.2.2.2.2 hr with hcons2 | hdd
      · split at h
        · exact ih _ t b ms t2 hs.2.1 he hcons2 hrest h
        · obtain ⟨-, hms, -⟩ : b = _ ∧ _ = ms ∧ _ = t2 := by simpa using h
          exact hms ▸ herr
      · rw [hdd] at h
        simp only [bne_self_eq_false, Bool.and_false] at h
        rw [if_neg (by simp)] at h
        obtain ⟨-, hms, -⟩ : b = _ ∧ _ = ms ∧ _ = t2 := by simpa using h
        exact hms ▸ herr
    · dsimp only at h
      obtain ⟨-, hms, -⟩ : b = _ ∧ _ = ms ∧ _ = t2 := by simpa using h
      exact hms ▸ herr
    · dsimp only at h
      obtain ⟨-, hms, -⟩ : b = _ ∧ _ = ms ∧ _ = t2 := by simpa using h
      exact hms ▸ herr

/-- A successful walk phase of af_do_reinit establishes the adjacency
invariant. -/
theorem af_do_reinit_walk_adj {env : AfEnv} {s : AFStream} {fuel : Nat} {s2 : AFStream}
    (hp : PreOK s.middle) (he : EnvOK env) (hfst : s.first_fmt_out = s.input)
    (h : af_do_reinit_walk env s fuel = some (AfResult.OK, s2)) :
    adjacentOK s2 = true := by
  simp only [af_do_reinit_walk] at h
  rcases hw : walk_mid env s.input s.output fuel [] s.middle
      ⟨s.filter_output, s.last_fmt_in, s.last_fmt_out⟩ with _ | ⟨b, ms, t⟩ <;> rw [hw] at h
  · simp at h
  · dsimp only at h
    cases b with
    | false => simp at h
    | true =>
      rw [if_pos rfl] at h
      have hadj := walk_mid_adj env s.input s.output fuel s.middle [] _ ms t
        (fun x hx => absurd hx (List.not_mem_nil x)) he rfl hp hw
      split at h
      · obtain ⟨-, h2⟩ : AfResult.OK = AfResult.OK ∧ _ = s2 := by simpa using h
        rw [← h2]
        simpa [adjacentOK, hfst] using hadj
      · simp at h

/-- Every outcome of the walk phase keeps the control contract. -/
theorem af_do_reinit_walk_preOK {env : AfEnv} {s : AFStream} {fuel : Nat}
    {r : AfResult} {s2 : AFStream}
    (hp : PreOK s.middle) (he : EnvOK env)
    (h : af_do_reinit_walk env s fuel = some (r, s2)) : PreOK s2.middle := by
  simp only [af_do_reinit_walk] at h
  rcases hw : walk_mid env s.input s.output fuel [] s.middle
      ⟨s.filter_output, s.last_fmt_in, s.last_fmt_out⟩ with _ | ⟨b, ms, t⟩ <;> rw [hw] at h
  · simp at h
  · have hpm := walk_mid_preOK env s.input s.output fuel s.middle [] _ b ms t
      (fun x hx => absurd hx (List.not_mem_nil x)) he rfl hp hw
    dsimp only at h
    cases b with
    | false =>
      obtain ⟨-, h2⟩ : AfResult.ERROR = r ∧ _ = s2 := by simpa using h
      rw [← h2]
      exact hpm
    | true =>
      rw [if_pos rfl] at h
      split at h
      · obtain ⟨-, h2⟩ : AfResult.OK = r ∧ _ = s2 := by simpa using h
        rw [← h2]
        exact hpm
      · obtain ⟨-, h2⟩ : AfResult.ERROR = r ∧ _ = s2 := by simpa using h
        rw [← h2]
        exact hpm

/-- Removing auto-inserted filters and resetting formats keeps the control
contract. -/
theorem PreOK_reset {s : AFStream} (hp : PreOK s.middle) :
    PreOK ((s.middle.filter fun af => !af.auto_inserted).map
      fun af => { af with data := nullConfig }) := by
  intro x hx
  obtain ⟨y, hy, hxy⟩ := List.mem_map.1 hx
  have : CtrlOK y.ctrl := hp y (List.mem_of_mem_filter hy)
  rw [← hxy]
  exact this

/-- A successful af_do_reinit_main establishes the adjacency invariant. -/
theorem af_do_reinit_main_adj {env : AfEnv} {s : AFStream} {ce : AudioConfig}
    {fuel : Nat} {s2 : AFStream}
    (hp : PreOK s.middle) (he : EnvOK env)
    (h : af_do_reinit_main env s ce fuel = some (AfResult.OK, s2)) :
    adjacentOK s2 = true := by
  simp only [af_do_reinit_main] at h
  split at h
  · rcases hm : env.mkConv with _ | c <;> rw [hm] at h
    · dsimp only at h
      simp at h
    · dsimp only at h
      split at h
      · simp at h
      · refine af_do_reinit_walk_adj ?_ he rfl h
        exact PreOK_cons (by rw [filter_reinit_ctrl]; exact he c hm) (PreOK_reset hp)
  · exact af_do_reinit_walk_adj (PreOK_reset hp) he rfl h

/-- Every outcome of af_do_reinit_main keeps the control contract. -/
theorem af_do_reinit_main_preOK {env : AfEnv} {s : AFStream} {ce : AudioConfig}
    {fuel : Nat} {r : AfResult} {s2 : AFStream}
    (hp : PreOK s.middle) (he : EnvOK env)
    (h : af_do_reinit_main env s ce fuel = some (r, s2)) : PreOK s2.middle := by
  simp only [af_do_reinit_main] at h
  split at h
  · rcases hm : env.mkConv with _ | c <;> rw [hm] at h
    · dsimp only at h
      obtain ⟨-, h2⟩ : AfResult.ERROR = r ∧ _ = s2 := by simpa using h
      rw [← h2]
      exact PreOK_reset hp
    · dsimp only at h
      have hp2 : PreOK ((filter_reinit s.input (convInstance c ce)).2 ::
          (s.middle.filter fun af => !af.auto_inserted).map fun af => { af with data := nullConfig }) :=
        PreOK_cons (by rw [filter_reinit_ctrl]; exact he c hm) (PreOK_reset hp)
      split at h
      · obtain ⟨-, h2⟩ : AfResult.ERROR = r ∧ _ = s2 := by simpa using h
        rw [← h2]
        exact hp2
      · exact af_do_reinit_walk_preOK hp2 he h
  · exact af_do_reinit_walk_preOK (PreOK_reset hp) he h

/-- A successful af_do_reinit pass either establishes adjacency or (second
pass only) returns with the chain untouched. -/
theorem af_do_reinit_adj {env : AfEnv} {s : AFStream} {second : Bool}
    {fuel : Nat} {s2 : AFStream}
    (hp : PreOK s.middle) (he : EnvOK env)
    (h : af_do_reinit env s second fuel = some (AfResult.OK, s2)) :
    adjacentOK s2 = true ∨ (second = true ∧ s2 = s) := by
  cases second with
  | false =>
    have h1 : af_do_reinit_main env s nullConfig fuel = some (AfResult.OK, s2) := h
    exact Or.inl (af_do_reinit_main_adj hp he h1)
  | true =>
    simp only [af_do_reinit, if_true] at h
    rcases hf : af_find_output_conversion s with _ | ⟨r0, ce⟩ <;> rw [hf] at h
    · simp at h
    · dsimp only at h
      by_cases hr0 : r0 = AfResult.OK
      · rw [if_neg (by simp [hr0])] at h
        exact Or.inl (af_do_reinit_main_adj hp he h)
      · rw [if_pos hr0] at h
        have h2 : s = s2 := by simpa using h
        exact Or.inr ⟨rfl, h2.symm⟩

/-- Every outcome of af_do_reinit keeps the control contract. -/
theorem af_do_reinit_preOK {env : AfEnv} {s : AFStream} {second : Bool}
    {fuel : Nat} {r : AfResult} {s2 : AFStream}
    (hp : PreOK s.middle) (he : EnvOK env)
    (h : af_do_reinit env s second fuel = some (r, s2)) : PreOK s2.middle := by
  cases second with
  | false =>
    have h1 : af_do_reinit_main env s nullConfig fuel = some (r, s2) := h
    exact af_do_reinit_main_preOK hp he h1
  | true =>
    simp only [af_do_reinit, if_true] at h
    rcases hf : af_find_output_conversion s with _ | ⟨r0, ce⟩ <;> rw [hf] at h
    · simp at h
    · dsimp only at h
      by_cases hr0 : r0 = AfResult.OK
      · rw [if_neg (by simp [hr0])] at h
        exact af_do_reinit_main_preOK hp he h
      · rw [if_pos hr0] at h
        obtain ⟨-, h2⟩ : AfResult.OK = r ∧ s = s2 := by simpa using h
        rw [← h2]
        exact hp

/-- Claim C1, amended: if every filter control obeys the contract (never
DETACH, and the output config is only rewritten on a clean accept) and
af_reinit succeeds, then every adjacent pair of filters from the head
sentinel to the tail sentinel agrees on the crossing configuration. -/
theorem c1_adjacent_after_reinit (env : AfEnv) (s : AFStream) (fuel : Nat)
    (s2 : AFStream) (he : EnvOK env) (hp : PreOK s.middle)
    (h : af_reinit env s fuel = some (AfResult.OK, s2)) :
    adjacentOK s2 = true := by
  simp only [af_reinit] at h
  rcases h1 : af_do_reinit env s false fuel with _ | ⟨r, s1⟩ <;> rw [h1] at h
  · simp at h
  · dsimp only at h
    split at h
    case isTrue hcond =>
      rcases h2 : af_do_reinit env s1 true fuel with _ | ⟨r2, s21⟩ <;> rw [h2] at h
      · simp at h
      · dsimp only at h
        have hp1 : PreOK s1.middle := af_do_reinit_preOK hp he h1
        split at h
        case isTrue hr2 =>
          have hp2 : PreOK s21.middle := af_do_reinit_preOK hp1 he h2
          rcases af_do_reinit_adj hp2 he h with hadj | ⟨hff, -⟩
          · exact hadj
          · simp at hff
        case isFalse hr2 =>
          have hr2' : r2 = AfResult.OK := by
            by_contra hcontra
            exact hr2 hcontra
          obtain ⟨-, hs2⟩ : r2 = AfResult.OK ∧ s21 = s2 := by
            rw [hr2'] at h ⊢
            simpa using h
          rw [hr2'] at h2
          rcases af_do_reinit_adj hp1 he h2 with hadj | ⟨-, hs21⟩
          · exact hs2 ▸ hadj
          · rw [← hs2, hs21]
            rw [hcond.1] at h1
            rcases af_do_reinit_adj hp he h1 with hadj | ⟨hff, -⟩
            · exact hadj
            · simp at hff
    case isFalse hcond =>
      obtain ⟨hr, hs⟩ : r = AfResult.OK ∧ s1 = s2 := by simpa using h
      rw [hr] at h1
      rcases af_do_reinit_adj hp he h1 with hadj | ⟨hff, -⟩
      · exact hs ▸ hadj
      · simp at hff

/-- The environment in which creating a conversion filter fails. -/
def envNone : AfEnv := ⟨none⟩

/-- A control that accepts any proposed input and produces it unchanged. -/
def ctrlAccept : Ctrl := fun i _ => (AfResult.OK, i, i)

/-- ctrlAccept obeys the control contract. -/
theorem ctrlAccept_ok : CtrlOK ctrlAccept := by
  intro i d
  exact ⟨by simp [ctrlAccept], Or.inl ⟨rfl, rfl⟩⟩

/-- A PCM stereo configuration used by the C1 counterexample. -/
def c1A : AudioConfig := ⟨1, [0, 1], 48000⟩

/-- A second PCM stereo configuration. -/
def c1B : AudioConfig := ⟨2, [0, 1], 48000⟩

/-- An spdif stereo configuration. -/
def c1S : AudioConfig := ⟨10, [0, 1], 48000⟩

/-- A control that accepts the chain input on the first negotiation but,
when renegotiated towards c1B, answers AF_FALSE while rewriting its output
config to the spdif configuration. -/
def c1gctrl : Ctrl := fun i d =>
  if d = c1B then (AfResult.FALSE, i, c1S) else (AfResult.OK, i, c1A)

/-- A control that always asks for input c1B. -/
def c1fctrl : Ctrl := fun _ d => (AfResult.FALSE, c1B, d)

/-- The two middle filters of the C1 counterexample chain. -/
def c1g : AFInstance := { ctrl := c1gctrl }

def c1f : AFInstance := { ctrl := c1fctrl }

/-- The C1 counterexample chain: input c1A, everything else unset. -/
def c1s : AFStream :=
  ⟨c1A, nullConfig, nullConfig, nullConfig, nullConfig, nullConfig, nullConfig,
    [c1g, c1f], 0⟩

/-- Counterexample to claim C1 as stated: af_reinit succeeds on this chain
(the second filter is dropped through the spdif exception after a failed
renegotiation mutated the predecessor's output config), yet the surviving
filter's fmt_out differs from the tail sentinel's fmt_in. -/
theorem c1_counterexample :
    ((af_reinit envNone c1s 10).map fun p => (p.1, adjacentOK p.2)) =
      some (AfResult.OK, false) := by
  rfl

/-- A valid mono configuration used by witnesses. -/
def wA : AudioConfig := ⟨1, [0], 8000⟩

/-- A single contract-obeying filter. -/
def wfilter : AFInstance := { ctrl := ctrlAccept }

/-- A fresh chain with one contract-obeying filter. -/
def wchain : AFStream :=
  ⟨wA, nullConfig, nullConfig, nullConfig, nullConfig, nullConfig, nullConfig,
    [wfilter], 0⟩

/-- The chain state wchain reaches after a successful af_reinit. -/
def wchainRes : AFStream :=
  ⟨wA, wA, wA, wA, wA, wA, wA, [⟨none, false, wA, wA, wA, ctrlAccept⟩], 1⟩

/-- The conversion-creation-failure environment trivially satisfies the
control contract. -/
theorem envNone_ok : EnvOK envNone := by
  intro c hc
  simp [envNone] at hc

/-- wchain satisfies the control contract. -/
theorem wchain_preOK : PreOK wchain.middle := by
  intro g hg
  simp [wchain] at hg
  rw [hg]
  exact ctrlAccept_ok

/-- Witness for the amended claim C1 at a concrete chain. -/
theorem c1_witness : adjacentOK wchainRes = true :=
  c1_adjacent_after_reinit envNone wchain 10 wchainRes envNone_ok wchain_preOK (by rfl)

/-- Claim C5: af_reinit always runs the first pass; it runs the second pass
exactly when the first pass succeeded with a valid chain output; a failed
second pass is reverted by running the first pass again, whose outcome is
then the final one. -/
theorem c5_af_reinit_spec (env : AfEnv) (s : AFStream) (fuel : Nat) :
    (∀ r s1, af_do_reinit env s false fuel = some (r, s1) →
      ¬(r = AfResult.OK ∧ mp_audio_config_valid s1.output = true) →
      af_reinit env s fuel = some (r, s1)) ∧
    (∀ s1, af_do_reinit env s false fuel = some (AfResult.OK, s1) →
      mp_audio_config_valid s1.output = true →
      (∀ s2, af_do_reinit env s1 true fuel = some (AfResult.OK, s2) →
        af_reinit env s fuel = some (AfResult.OK, s2)) ∧
      (∀ r2 s2, af_do_reinit env s1 true fuel = some (r2, s2) → r2 ≠ AfResult.OK →
        af_reinit env s fuel = af_do_reinit env s2 false fuel)) ∧
    (af_do_reinit env s false fuel = none → af_reinit env s fuel = none) := by
  refine ⟨?_, ?_, ?_⟩
  · intro r s1 h hn
    simp only [af_reinit]
    rw [h]
    dsimp only
    rw [if_neg hn]
  · intro s1 h hv
    constructor
    · intro s2 h2
      simp only [af_reinit]
      rw [h]
      dsimp only
      rw [if_pos ⟨rfl, hv⟩, h2]
      dsimp only
      rw [if_neg (by simp)]
    · intro r2 s2 h2 hr2
      simp only [af_reinit]
      rw [h]
      dsimp only
      rw [if_pos ⟨rfl, hv⟩, h2]
      dsimp only
      rw [if_pos hr2]
  · intro h
    simp only [af_reinit]
    rw [h]

/-- Witness for claim C5 on a concrete chain where both passes succeed. -/
theorem c5_witness : af_reinit envNone wchain 10 = some (AfResult.OK, wchainRes) :=
  ((c5_af_reinit_spec envNone wchain 10).2.1 wchainRes (by rfl) (by rfl)).1 wchainRes (by rfl)

/-- Shared helper: every walk-phase failure marks the chain with error. -/
theorem af_do_reinit_walk_fail_init {env : AfEnv} {s : AFStream} {fuel : Nat}
    {r : AfResult} {s2 : AFStream}
    (h : af_do_reinit_walk env s fuel = some (r, s2)) (hr : r ≠ AfResult.OK) :
    s2.initialized = -1 := by
  simp only [af_do_reinit_walk] at h
  rcases hw : walk_mid env s.input s.output fuel [] s.middle
      ⟨s.filter_output, s.last_fmt_in, s.last_fmt_out⟩ with _ | ⟨b, ms, t⟩ <;> rw [hw] at h
  · simp at h
  · dsimp only at h
    cases b with
    | false =>
      obtain ⟨-, h2⟩ : AfResult.ERROR = r ∧ _ = s2 := by simpa using h
      rw [← h2]
    | true =>
      rw [if_pos rfl] at h
      split at h
      · obtain ⟨hok, -⟩ : AfResult.OK = r ∧ _ = s2 := by simpa using h
        exact absurd hok.symm hr
      · obtain ⟨-, h2⟩ : AfResult.ERROR = r ∧ _ = s2 := by simpa using h
        rw [← h2]

/-- Claim C2, amended: when the walk completes, the unset fields of the
requested output are filled from the actual filter output and the pass
succeeds with initialized = 1 exactly when the two agree; every failure
reached during or after the walk, and every first-pass failure, sets
initialized = -1 (the second-pass early-conversion insertion failures
return AF_ERROR without touching initialized). -/
theorem c2_do_reinit_output_spec (env : AfEnv) :
    (∀ (s : AFStream) (fuel : Nat) (ms : List AFInstance) (t : TailSt),
      walk_mid env s.input s.output fuel [] s.middle
          ⟨s.filter_output, s.last_fmt_in, s.last_fmt_out⟩ = some (true, ms, t) →
      af_do_reinit_walk env s fuel =
        (if af_copy_unset_fields s.output t.fo = t.fo then
          some (AfResult.OK,
            { s with middle := ms, filter_output := t.fo, last_fmt_in := t.li,
                     last_fmt_out := t.lo, output := af_copy_unset_fields s.output t.fo,
                     initialized := 1 })
         else
          some (AfResult.ERROR,
            { s with middle := ms, filter_output := t.fo, last_fmt_in := t.li,
                     last_fmt_out := t.lo, output := af_copy_unset_fields s.output t.fo,
                     initialized := -1 }))) ∧
    (∀ (s : AFStream) (fuel : Nat) (r : AfResult) (s2 : AFStream),
      af_do_reinit_walk env s fuel = some (r, s2) → r ≠ AfResult.OK →
      s2.initialized = -1) ∧
    (∀ (s : AFStream) (fuel : Nat) (r : AfResult) (s2 : AFStream),
      af_do_reinit env s false fuel = some (r, s2) → r ≠ AfResult.OK →
      s2.initialized = -1) := by
  refine ⟨?_, ?_, ?_⟩
  · intro s fuel ms t hw
    simp only [af_do_reinit_walk]
    rw [hw]
    dsimp only
    rw [if_pos rfl]
  · intro s fuel r s2 h hr
    exact af_do_reinit_walk_fail_init h hr
  · intro s fuel r s2 h hr
    have h1 : af_do_reinit_main env s nullConfig fuel = some (r, s2) := h
    simp only [af_do_reinit_main] at h1
    rw [if_neg (by decide)] at h1
    exact af_do_reinit_walk_fail_init h1 hr

/-- The stereo input and the mono output of the C2 counterexample. -/
def c2in : AudioConfig := ⟨1, [0, 1], 48000⟩

def c2out : AudioConfig := ⟨1, [0], 48000⟩

/-- A user filter and an auto-inserted channel conversion filter. -/
def c2u : AFInstance := { ctrl := ctrlAccept }

def c2conv : AFInstance :=
  { auto_inserted := true, fmt_in := c2in, fmt_out := c2out, ctrl := ctrlAccept }

/-- A successfully initialised chain that qualifies for the second-pass
early conversion. -/
def c2s : AFStream :=
  ⟨c2in, c2out, c2out, c2in, c2in, c2out, c2out, [c2u, c2conv], 1⟩

/-- Counterexample to claim C2 as stated: the second pass detects the early
conversion, fails to create the conversion filter, and returns AF_ERROR
while leaving initialized at 1 instead of setting it to -1. -/
theorem c2_counterexample :
    ((af_do_reinit envNone c2s true 10).map fun p => (p.1, p.2.initialized)) =
      some (AfResult.ERROR, 1) := by
  rfl

/-- Witness for the amended claim C2 on a concrete walk. -/
theorem c2_witness :
    af_do_reinit_walk envNone wchain 10 =
      some (AfResult.OK,
        { wchain with middle := [⟨none, false, wA, wA, wA, ctrlAccept⟩],
                      filter_output := wA, last_fmt_in := wA, last_fmt_out := wA,
                      output := wA, initialized := 1 }) := by
  have h := (c2_do_reinit_output_spec envNone).1 wchain 10
    [⟨none, false, wA, wA, wA, ctrlAccept⟩] ⟨wA, wA, wA⟩ (by rfl)
  exact h.trans (by rfl)

/-- The environment whose conversion filter always answers AF_FALSE. -/
def envFalse : AfEnv := ⟨some fun i d => (AfResult.FALSE, i, d)⟩

/-- The spdif input and the pinned PCM output of the C4 counterexample. -/
def c4in : AudioConfig := ⟨10, [0, 1], 48000⟩

def c4out : AudioConfig := ⟨1, [0, 1], 48000⟩

/-- An empty chain with spdif input and fully pinned PCM output. -/
def c4s : AFStream :=
  ⟨c4in, c4out, nullConfig, nullConfig, nullConfig, nullConfig, nullConfig, [], 0⟩

/-- Claim C4, amended: when a filter still reports AF_FALSE after the
conversion attempt, it is dropped and the walk continues exactly when both
boundary formats are valid, exactly one of them is spdif, and the filter
has a successor; in every other FALSE case (in particular at the tail
sentinel, which has no successor) the walk fails, and every walk failure
marks the chain with initialized = -1. -/
theorem c4_spdif_drop_spec (env : AfEnv) :
    (∀ (input output : AudioConfig) (fuel : Nat) (pre : List AFInstance)
        (f : AFInstance) (rest : List AFInstance) (t : TailSt)
        (pre2 : List AFInstance) (f2 : AFInstance),
      firc env input pre f = (AfResult.FALSE, pre2, f2) →
      walk_mid env input output fuel pre (f :: rest) t =
        (if af_fmt_is_valid (prevData input pre2).format &&
            af_fmt_is_valid f2.fmt_in.format &&
            (af_fmt_is_spdif (prevData input pre2).format !=
              af_fmt_is_spdif f2.fmt_in.format)
         then walk_mid env input output fuel pre2 rest t
         else some (false, pre2.reverse ++ f2 :: rest, t))) ∧
    (∀ (input output : AudioConfig) (fuel : Nat) (pre : List AFInstance)
        (t : TailSt) (pre2 : List AFInstance) (t2 : TailSt),
      firc_out env input output pre t = (AfResult.FALSE, pre2, t2) →
      walk_tail env input output (fuel + 1) pre t = some (false, pre2.reverse, t2)) ∧
    (∀ (s : AFStream) (fuel : Nat) (r : AfResult) (s2 : AFStream),
      af_do_reinit_walk env s fuel = some (r, s2) → r ≠ AfResult.OK →
      s2.initialized = -1) := by
  refine ⟨?_, ?_, ?_⟩
  · intro input output fuel pre f rest t pre2 f2 h
    simp only [walk_mid]
    rw [h]
  · intro input output fuel pre t pre2 t2 h
    simp only [walk_tail]
    rw [h]
  · intro s fuel r s2 h hr
    exact af_do_reinit_walk_fail_init h hr

/-- Counterexample to claim C4 as stated: the tail sentinel reports
AF_FALSE with exactly one spdif format on the boundary, and the walk fails
instead of dropping the filter and continuing. -/
theorem c4_counterexample :
    firc_out envFalse c4in c4out [] ⟨nullConfig, nullConfig, nullConfig⟩ =
      (AfResult.FALSE, [], ⟨c4out, c4out, nullConfig⟩) ∧
    (af_fmt_is_spdif c4in.format != af_fmt_is_spdif c4out.format) = true ∧
    ((af_do_reinit envFalse c4s false 10).map fun p => (p.1, p.2.initialized)) =
      some (AfResult.ERROR, -1) := by
  exact ⟨rfl, rfl, rfl⟩

/-- Witness for the amended claim C4 at the concrete tail FALSE case. -/
theorem c4_witness :
    walk_tail envFalse c4in c4out 11 [] ⟨nullConfig, nullConfig, nullConfig⟩ =
      some (false, [], ⟨c4out, c4out, nullConfig⟩) :=
  (c4_spdif_drop_spec envFalse).2.1 c4in c4out 10 [] ⟨nullConfig, nullConfig, nullConfig⟩
    [] ⟨c4out, c4out, nullConfig⟩ (by rfl)

/-- Claim C7, amended: the early-conversion detection records the requested
output exactly when the chain is successfully initialised with a valid
requested output whose channel layout differs (reorder-insensitively) from
the input's, the last filter is an auto-inserted converter bridging the two
channel layouts, no other auto-inserted filter changes channels, and that
converter is not the only filter; whenever the detection fails, the second
pass returns AF_OK without changing the chain. -/
theorem c7_find_output_conversion_spec (s : AFStream) (env : AfEnv) (fuel : Nat) :
    (∀ cfg, af_find_output_conversion s = some (AfResult.OK, cfg) → cfg = s.output) ∧
    (af_find_output_conversion s = some (AfResult.OK, s.output) ↔
      (mp_audio_config_valid s.output = true ∧ 0 < s.initialized ∧
       mp_chmap_equals_reordered s.input.channels s.output.channels = false ∧
       ∃ conv, s.middle.getLast? = some conv ∧ conv.auto_inserted = true ∧
         mp_chmap_equals_reordered conv.fmt_in.channels s.input.channels = true ∧
         mp_chmap_equals_reordered conv.fmt_out.channels s.output.channels = true ∧
         (∀ af ∈ s.middle.dropLast, af.auto_inserted = true →
           mp_chmap_equals_reordered af.fmt_in.channels af.fmt_out.channels = true) ∧
         s.middle.length ≠ 1)) ∧
    (∀ r cfg, af_find_output_conversion s = some (r, cfg) → r ≠ AfResult.OK →
      af_do_reinit env s true fuel = some (AfResult.OK, s)) := by
  refine ⟨?_, ⟨?_, ?_⟩, ?_⟩
  · intro cfg h
    simp only [af_find_output_conversion] at h
    repeat' split at h
    all_goals simp_all
  · intro h
    simp only [af_find_output_conversion] at h
    cases hv : mp_audio_config_valid s.output && decide (0 < s.initialized) with
    | false =>
      rw [if_pos (by simp [hv])] at h
      exact absurd h (by simp)
    | true =>
      rw [if_neg (by simp [hv])] at h
      cases hne : mp_chmap_equals_reordered s.input.channels s.output.channels with
      | true =>
        rw [if_pos hne] at h
        exact absurd h (by simp)
      | false =>
        rw [if_neg (by simp [hne])] at h
        rcases hlast : s.middle.getLast? with _ | conv <;> rw [hlast] at h
        · exact absurd h (by simp)
        · dsimp only at h
          cases hauto : conv.auto_inserted with
          | false =>
            rw [if_pos (by simp [hauto])] at h
            exact absurd h (by simp)
          | true =>
            rw [if_neg (by simp [hauto])] at h
            cases hio : mp_chmap_equals_reordered conv.fmt_in.channels s.input.channels &&
                mp_chmap_equals_reordered conv.fmt_out.channels s.output.channels with
            | false =>
              rw [if_pos (by simp [hio])] at h
              exact absurd h (by simp)
            | true =>
              rw [if_neg (by simp [hio])] at h
              cases hall : s.middle.dropLast.all fun af =>
                  !(af.auto_inserted &&
                    !mp_chmap_equals_reordered af.fmt_in.channels af.fmt_out.channels) with
              | false =>
                rw [if_pos (by rw [hall]; rfl)] at h
                exact absurd h (by simp)
              | true =>
                rw [if_neg (by rw [hall]; simp)] at h
                by_cases hlen : s.middle.length = 1
                · rw [if_pos hlen] at h
                  exact absurd h (by simp)
                · rw [if_neg hlen] at h
                  obtain ⟨hv1, hv2⟩ : mp_audio_config_valid s.output = true ∧
                      0 < s.initialized := by simpa using hv
                  obtain ⟨hio1, hio2⟩ :
                      mp_chmap_equals_reordered conv.fmt_in.channels s.input.channels = true ∧
                      mp_chmap_equals_reordered conv.fmt_out.channels s.output.channels = true := by
                    simpa using hio
                  refine ⟨hv1, hv2, rfl, conv, rfl, hauto, hio1, hio2, ?_, hlen⟩
                  intro af haf ha
                  have hx := List.all_eq_true.1 hall af haf
                  simp only [ha, Bool.true_and, Bool.not_not] at hx
                  exact hx
  · rintro ⟨hv, hi, hne, conv, hlast, hauto, hin, hout, hall, hlen⟩
    have hall2 : (s.middle.dropLast.all fun af =>
        !(af.auto_inserted &&
          !mp_chmap_equals_reordered af.fmt_in.channels af.fmt_out.channels)) = true := by
      rw [List.all_eq_true]
      intro af haf
      cases ha : af.auto_inserted with
      | false => simp [ha]
      | true => simp [ha, hall af haf ha]
    simp only [af_find_output_conversion]
    rw [if_neg (by simp [hv, hi]), if_neg (by simp [hne]), hlast]
    dsimp only
    rw [if_neg (by simp [hauto]), if_neg (by simp [hin, hout]),
      if_neg (by rw [hall2]; simp), if_neg hlen]
  · intro r cfg h hr
    simp only [af_do_reinit, if_true]
    rw [h]
    dsimp only
    rw [if_pos hr]

/-- An initialised chain whose input and output differ in rate as well as
in channel layout, with a qualifying auto-inserted channel converter. -/
def c7s : AFStream :=
  ⟨⟨1, [0, 1], 44100⟩, ⟨1, [0], 48000⟩, ⟨1, [0], 48000⟩, ⟨1, [0, 1], 44100⟩,
    ⟨1, [0, 1], 44100⟩, ⟨1, [0], 48000⟩, ⟨1, [0], 48000⟩, [c2u, c2conv], 1⟩

/-- Counterexample to claim C7 as stated: the detection records the output
even though input and output do not differ only in channel layout (the
sample rates differ too). -/
theorem c7_counterexample :
    af_find_output_conversion c7s = some (AfResult.OK, c7s.output) ∧
    c7s.input.rate ≠ c7s.output.rate := by
  exact ⟨rfl, by decide⟩

/-- Witness for the amended claim C7: on a chain where the detection fails,
the second pass changes nothing. -/
theorem c7_witness :
    af_do_reinit envNone wchainRes true 10 = some (AfResult.OK, wchainRes) :=
  (c7_find_output_conversion_spec wchainRes envNone 10).2.2 AfResult.ERROR nullConfig
    (by rfl) (by simp)

/-- Claim C9: remove_by_label answers 0 leaving the chain untouched when no
filter carries the label, 1 when removal and renegotiation succeed, and -1
(after a full af_uninit and af_init) when the renegotiation fails; the
error answer is negative and distinct from both other answers. -/
theorem c9_remove_by_label_spec (ie : InitEnv) (s : AFStream) (label : String)
    (fuel : Nat) :
    (af_find_by_label s label = none → af_remove_by_label ie s label fuel = some (0, s)) ∧
    (∀ f, af_find_by_label s label = some f →
      (∀ s2, af_reinit ie.env { s with middle := removeFirstLabel label s.middle } fuel =
          some (AfResult.OK, s2) →
        af_remove_by_label ie s label fuel = some (1, s2)) ∧
      (∀ r s2, af_reinit ie.env { s with middle := removeFirstLabel label s.middle } fuel =
          some (r, s2) → r ≠ AfResult.OK →
        af_remove_by_label ie s label fuel =
          (af_init ie (af_uninit s2) fuel).map fun p => ((-1 : Int), p.2))) ∧
    ((0 : Int) ≠ -1 ∧ (1 : Int) ≠ -1 ∧ (-1 : Int) < 0) := by
  refine ⟨?_, ?_, by decide, by decide, by decide⟩
  · intro h
    simp only [af_remove_by_label]
    rw [h]
  · intro f hf
    constructor
    · intro s2 h2
      simp only [af_remove_by_label]
      rw [hf]
      dsimp only
      rw [h2]
      dsimp only
      rw [if_neg (by simp)]
    · intro r s2 h2 hr
      simp only [af_remove_by_label]
      rw [hf]
      dsimp only
      rw [h2]
      dsimp only
      rw [if_pos hr]

/-- A chain holding one labelled filter, for the C9 and C10 witnesses. -/
def c9filter : AFInstance := { label := some "x", ctrl := ctrlAccept }

def c9s : AFStream :=
  ⟨wA, nullConfig, nullConfig, nullConfig, nullConfig, nullConfig, nullConfig,
    [c9filter], 1⟩

def c9ie : InitEnv := ⟨envNone, []⟩

/-- Witness for claim C9: removing the only labelled filter succeeds. -/
theorem c9_witness :
    af_remove_by_label c9ie c9s "x" 10 =
      some (1, ⟨wA, wA, wA, wA, wA, wA, wA, [], 1⟩) :=
  ((c9_remove_by_label_spec c9ie c9s "x" 10).2.1 c9filter (by rfl)).1
    ⟨wA, wA, wA, wA, wA, wA, wA, [], 1⟩ (by rfl)

/-- Claim C10: when a filter with the requested label already exists,
af_add fails before creating or inserting anything and leaves the chain
unchanged, so labels stay unique under af_add. -/
theorem c10_add_unique_label (ie : InitEnv) (s : AFStream) (label : String)
    (inst? : Option AFInstance) (fuel : Nat) (f : AFInstance)
    (h : af_find_by_label s label = some f) :
    af_add ie s label inst? fuel = some (none, s) := by
  simp [af_add, h]

/-- Witness for claim C10 at a concrete duplicate-label insertion. -/
theorem c10_witness : af_add c9ie c9s "x" none 10 = some (none, c9s) :=
  c10_add_unique_label c9ie c9s "x" none 10 c9filter (by rfl)

/-- An audio frame: its configuration plus an abstract payload identity. -/
structure Frame where
  config : AudioConfig
  fid : Nat
deriving DecidableEq, Repr

/-- The frame-propagation view of a filter instance: configs, the queued
output frames, an abstract private state, and the filter_frame/filter_out
callbacks.  A callback returns its result code, its new private state, and
the frames it handed to af_add_output_frame. -/
structure PFilter where
  fmt_in : AudioConfig := nullConfig
  fmt_out : AudioConfig := nullConfig
  pst : Nat := 0
  out_queued : List Frame := []
  filter_frame : Nat → Option Frame → Int × Nat × List Frame
  filter_out : Option (Nat → Int × Nat × List Frame) := none

/-- Embedding of af_add_output_frame for the frames a callback produced:
each one must match the filter's fmt_out (the C assert), and is appended. -/
def af_add_output_frames (af : PFilter) (frames : List Frame) : Option PFilter :=
  if frames.all fun x => decide (x.config = af.fmt_out) then
    some { af with out_queued := af.out_queued ++ frames }
  else none

/-- Embedding of af_do_filter: assert the input frame matches fmt_in, call
filter_frame, and enqueue whatever it produced (a negative result is only
logged). -/
def af_do_filter (af : PFilter) (frame : Option Frame) : Option (Int × PFilter) :=
  if frame.all fun x => decide (x.config = af.fmt_in) then
    let r := af.filter_frame af.pst frame
    (af_add_output_frames { af with pst := r.2.1 } r.2.2).map fun af2 => (r.1, af2)
  else none

/-- Embedding of af_has_output_frame: if the queue is empty and filter_out
exists, call it once; report whether the queue is now non-empty. -/
def af_has_output_frame (af : PFilter) : Option (Bool × PFilter) :=
  if af.out_queued.isEmpty then
    match af.filter_out with
    | none => some (false, af)
    | some fo =>
      let r := fo af.pst
      (af_add_output_frames { af with pst := r.2.1 } r.2.2).map fun af2 =>
        (!af2.out_queued.isEmpty, af2)
  else some (true, af)

/-- Embedding of af_dequeue_output_frame. -/
def af_dequeue_output_frame (af : PFilter) : Option (Option Frame × PFilter) :=
  (af_has_output_frame af).map fun p =>
    if p.1 then (p.2.out_queued.head?, { p.2 with out_queued := p.2.out_queued.tail })
    else (none, p.2)

/-- Embedding of read_remaining: call filter_out until the queue length
stops growing or the callback fails (fuelled, as the C loop is unbounded). -/
def read_remaining : Nat → PFilter → Option PFilter
  | 0, _ => none
  | fuel + 1, af =>
    match af.filter_out with
    | none => some af
    | some fo =>
      let n := af.out_queued.length
      let r := fo af.pst
      match af_add_output_frames { af with pst := r.2.1 } r.2.2 with
      | none => none
      | some af2 =>
        if r.1 < 0 then some af2
        else if af2.out_queued.length = n then some af2
        else read_remaining fuel af2

/-- One head-to-tail pass of af_output_frame: drain on EOF while no earlier
filter produced output, and record the index of the last filter holding an
output frame.  Sum.inl is the early error return of the C code. -/
def walk_pass (eof : Bool) (rfuel : Nat) :
    List PFilter → Option Nat → Nat → Option (List PFilter × (Int ⊕ Option Nat))
  | [], last, _ => some ([], Sum.inr last)
  | c :: rest, last, idx =>
    let step : Option (Int × PFilter) :=
      if eof && last.isNone then
        (read_remaining rfuel c).bind fun c1 => af_do_filter c1 none
      else some (0, c)
    match step with
    | none => none
    | some (r, c2) =>
      if r < 0 then some (c2 :: rest, Sum.inl r)
      else
        match af_has_output_frame c2 with
        | none => none
        | some (b, c3) =>
          let last2 := if b then some idx else last
          match walk_pass eof rfuel rest last2 (idx + 1) with
          | none => none
          | some (l, res) => some (c3 :: l, res)

/-- The while(1) loop of af_output_frame: run a pass; 0 if nothing has
output, 1 if the tail has, otherwise move one frame from the last filter
with output to its successor and repeat. -/
def af_output_frame_loop (eof : Bool) (rfuel : Nat) :
    Nat → List PFilter → Option (Int × List PFilter)
  | 0, _ => none
  | fuel + 1, fs =>
    match walk_pass eof rfuel fs none 0 with
    | none => none
    | some (fs1, Sum.inl r) => some (r, fs1)
    | some (fs1, Sum.inr none) => some (0, fs1)
    | some (fs1, Sum.inr (some i)) =>
      if i + 1 = fs1.length then some (1, fs1)
      else
        match fs1[i]? with
        | none => none
        | some fi =>
          match af_dequeue_output_frame fi with
          | none => none
          | some (fr, fi2) =>
            match (fs1.set i fi2)[i + 1]? with
            | none => none
            | some fn =>
              match af_do_filter fn fr with
              | none => none
              | some (r, fn2) =>
                if r < 0 then some (r, (fs1.set i fi2).set (i + 1) fn2)
                else af_output_frame_loop eof rfuel fuel ((fs1.set i fi2).set (i + 1) fn2)

/-- The propagation view of the chain: the filter list runs from the head
sentinel to the tail sentinel. -/
structure AFStreamP where
  initialized : Int
  filters : List PFilter

/-- Embedding of af_output_frame. -/
def af_output_frame (s : AFStreamP) (eof : Bool) (rfuel fuel : Nat) :
    Option (Int × AFStreamP) :=
  match s.filters.getLast? with
  | none => none
  | some lastf =>
    if !lastf.out_queued.isEmpty then some (1, s)
    else if s.initialized < 1 then some (-1, s)
    else (af_output_frame_loop eof rfuel fuel s.filters).map fun p =>
      (p.1, { s with filters := p.2 })

/-- Claim C6: af_output_frame returns 1 whenever the tail sentinel already
holds a queued frame; during a pass a filter is EOF-drained only while no
earlier filter produced output; a pass with no output yields 0; a pass
whose last producer is the tail yields 1; otherwise exactly one frame is
moved from the last producer to its successor and the loop repeats. -/
theorem c6_output_frame_spec :
    (∀ (s : AFStreamP) (eof : Bool) (rfuel fuel : Nat) (lastf : PFilter),
      s.filters.getLast? = some lastf → lastf.out_queued ≠ [] →
      af_output_frame s eof rfuel fuel = some (1, s)) ∧
    (∀ (eof : Bool) (rfuel : Nat) (c : PFilter) (rest : List PFilter) (j idx : Nat),
      walk_pass eof rfuel (c :: rest) (some j) idx =
        (match af_has_output_frame c with
         | none => none
         | some (b, c3) =>
           match walk_pass eof rfuel rest (if b then some idx else some j) (idx + 1) with
           | none => none
           | some (l, res) => some (c3 :: l, res))) ∧
    (∀ (rfuel : Nat) (c : PFilter) (rest : List PFilter) (idx : Nat),
      walk_pass true rfuel (c :: rest) none idx =
        (match (read_remaining rfuel c).bind fun c1 => af_do_filter c1 none with
         | none => none
         | some (r, c2) =>
           if r < 0 then some (c2 :: rest, Sum.inl r)
           else
             match af_has_output_frame c2 with
             | none => none
             | some (b, c3) =>
               match walk_pass true rfuel rest (if b then some idx else none) (idx + 1) with
               | none => none
               | some (l, res) => some (c3 :: l, res))) ∧
    (∀ (eof : Bool) (rfuel fuel : Nat) (fs fs1 : List PFilter),
      walk_pass eof rfuel fs none 0 = some (fs1, Sum.inr none) →
      af_output_frame_loop eof rfuel (fuel + 1) fs = some (0, fs1)) ∧
    (∀ (eof : Bool) (rfuel fuel : Nat) (fs fs1 : List PFilter) (i : Nat),
      walk_pass eof rfuel fs none 0 = some (fs1, Sum.inr (some i)) →
      i + 1 = fs1.length →
      af_output_frame_loop eof rfuel (fuel + 1) fs = some (1, fs1)) ∧
    (∀ (eof : Bool) (rfuel fuel : Nat) (fs fs1 : List PFilter) (i : Nat)
        (fi fi2 fn fn2 : PFilter) (fr : Option Frame) (r : Int),
      walk_pass eof rfuel fs none 0 = some (fs1, Sum.inr (some i)) →
      i + 1 ≠ fs1.length →
      fs1[i]? = some fi →
      af_dequeue_output_frame fi = some (fr, fi2) →
      (fs1.set i fi2)[i + 1]? = some fn →
      af_do_filter fn fr = some (r, fn2) →
      af_output_frame_loop eof rfuel (fuel + 1) fs =
        (if r < 0 then some (r, (fs1.set i fi2).set (i + 1) fn2)
         else af_output_frame_loop eof rfuel fuel ((fs1.set i fi2).set (i + 1) fn2))) := by
  refine ⟨?_, ?_, ?_, ?_, ?_, ?_⟩
  · intro s eof rfuel fuel lastf hlast hne
    simp only [af_output_frame]
    rw [hlast]
    dsimp only
    rw [if_pos (by simpa using hne)]
  · intro eof rfuel c rest j idx
    simp only [walk_pass, Option.isNone_some, Bool.and_false]
    rfl
  · intro rfuel c rest idx
    rfl
  · intro eof rfuel fuel fs fs1 h
    simp only [af_output_frame_loop]
    rw [h]
  · intro eof rfuel fuel fs fs1 i h hlen
    simp only [af_output_frame_loop]
    rw [h]
    dsimp only
    rw [if_pos hlen]
  · intro eof rfuel fuel fs fs1 i fi fi2 fn fn2 fr r h hlen hfi hdeq hfn hdo
    simp only [af_output_frame_loop]
    rw [h]
    dsimp only
    rw [if_neg hlen, hfi]
    dsimp only
    rw [hdeq]
    dsimp only
    rw [hfn]
    dsimp only
    rw [hdo]

/-- A one-filter chain whose tail already queues a frame. -/
def c6chain : AFStreamP :=
  ⟨1, [{ fmt_in := wA, fmt_out := wA, out_queued := [⟨wA, 7⟩],
         filter_frame := fun st fr => (0, st, fr.toList) }]⟩

/-- Witness for claim C6: a queued tail frame yields an immediate 1. -/
theorem c6_witness : af_output_frame c6chain false 3 3 = some (1, c6chain) :=
  c6_output_frame_spec.1 c6chain false 3 3
    { fmt_in := wA, fmt_out := wA, out_queued := [⟨wA, 7⟩],
      filter_frame := fun st fr => (0, st, fr.toList) } (by rfl) (by simp)

/-- Witness for claim C3: an invalid predecessor output yields AF_ERROR. -/
theorem c3_witness : filter_reinit nullConfig wfilter = (AfResult.ERROR, wfilter) :=
  (c3_filter_reinit_spec nullConfig wfilter).1 (by rfl)

/-- The playback status machine (enum playback_status); the enum order of
the C code is SYNCING, FILLING, READY, PLAYING, DRAINING, EOF. -/
inductive PlayStatus where
  | SYNCING
  | FILLING
  | READY
  | PLAYING
  | DRAINING
  | EOF
deriving DecidableEq, Repr

/-- Numeric position of a status in the C enum, for the < comparisons. -/
def PlayStatus.ord : PlayStatus → Nat
  | SYNCING => 0
  | FILLING => 1
  | READY => 2
  | PLAYING => 3
  | DRAINING => 4
  | EOF => 5

/-- The option fields get_sync_samples reads. -/
structure MPOpts where
  initial_audio_sync : Bool
  audio_delay : ℚ
deriving DecidableEq, Repr

/-- The coordinator state read and written by get_sync_samples.  Doubles
are modelled as rationals, MP_NOPTS_VALUE as none; written_pts abstracts
the value computed by written_audio_pts (decoder pts minus buffered
duration, which lives outside the modelled state); ao_track_demuxer and
vo_track_demuxer are the identities of the track demuxers, none when the
chain or its track is absent. -/
structure MPContext where
  opts : MPOpts
  audio_status : PlayStatus
  video_status : PlayStatus
  ao_rate : Int
  ao_format : Nat
  audio_speed : ℚ
  written_pts : Option ℚ
  ao_buffer_samples : Nat
  has_vo_chain : Bool
  vo_is_coverart : Bool
  video_pts : Option ℚ
  hrseek_active : Bool
  hrseek_pts : Option ℚ
  playback_pts : Option ℚ
  audio_allow_second_chance_seek : Bool
  has_ao_chain : Bool
  ao_track_demuxer : Option Nat
  vo_track_demuxer : Option Nat
  delay : ℚ
  audio_drop_throttle : ℚ
  audio_stat_start : ℚ
deriving DecidableEq, Repr

/-- Embedding of reset_audio_state (player/audio.c). -/
def reset_audio_state (m : MPContext) : MPContext :=
  { m with
      audio_status := if m.has_ao_chain then PlayStatus.SYNCING else PlayStatus.EOF,
      delay := 0, audio_drop_throttle := 0, audio_stat_start := 0,
      audio_allow_second_chance_seek := false }

/-- Modelled from the spec: af_format_sample_alignment, the sample-count
alignment required for AO writes; 1 for PCM, a larger frame size for the
spdif family. -/
def af_format_sample_alignment (f : Nat) : Int :=
  if af_fmt_is_spdif f then 512 else 1

/-- MPCLAMP from common.h: clamp a into the interval from mi to ma. -/
def MPCLAMP (a mi ma : ℚ) : ℚ := max mi (min a ma)

/-- The C double-to-int cast: truncation toward zero. -/
def c_trunc (q : ℚ) : Int := if 0 ≤ q then ⌊q⌋ else ⌈q⌉

/-- The sync_to_video condition of get_sync_samples. -/
def sync_to_video (m : MPContext) : Bool :=
  m.has_vo_chain && !m.vo_is_coverart && decide (m.video_status ≠ PlayStatus.EOF)

/-- The sync_pts selection of get_sync_samples. -/
def sync_pts_of (m : MPContext) : Option ℚ :=
  if sync_to_video m then m.video_pts.map fun v => v - m.opts.audio_delay
  else if m.hrseek_active then m.hrseek_pts
  else m.playback_pts

/-- The guard of the second-chance refresh seek. -/
def second_chance_cond (m : MPContext) (ptsdiff : ℚ) : Bool :=
  decide (ptsdiff > 1 / 5) && m.audio_allow_second_chance_seek && sync_to_video m &&
    (match m.ao_track_demuxer, m.vo_track_demuxer with
     | some a, some v => decide (a ≠ v)
     | _, _ => false)

/-- Embedding of get_sync_samples: the returned triple is the C boolean
result, the skip value, and the updated coordinator state. -/
def get_sync_samples (m : MPContext) : Bool × Int × MPContext :=
  if m.audio_status ≠ PlayStatus.SYNCING then (true, 0, m)
  else
    let play_samplerate : ℚ := (m.ao_rate : ℚ) / m.audio_speed
    if !m.opts.initial_audio_sync then
      (true, 0, { m with audio_status := PlayStatus.FILLING })
    else if m.written_pts = none ∧ m.ao_buffer_samples = 0 then (false, 0, m)
    else if sync_to_video m && decide (m.video_status.ord < PlayStatus.READY.ord) then
      (false, 0, m)
    else
      match sync_pts_of m with
      | none => (true, 0, { m with audio_status := PlayStatus.FILLING })
      | some sp =>
        match m.written_pts with
        | none => (true, 0, { m with audio_status := PlayStatus.FILLING })
        | some wp =>
          let ptsdiff := MPCLAMP (wp - sp) (-3600) 3600
          if second_chance_cond m ptsdiff then (false, 0, reset_audio_state m)
          else
            let align := af_format_sample_alignment m.ao_format
            (true, Int.tdiv (c_trunc (-ptsdiff * play_samplerate)) align * align,
              { m with audio_allow_second_chance_seek := false })

/-- Shared helper: the skip computed in SYNCING with a known written PTS
and a known sync PTS, when the second-chance refresh is not taken. -/
theorem get_sync_samples_skip (m : MPContext) (wp sp : ℚ)
    (hst : m.audio_status = PlayStatus.SYNCING)
    (hsync : m.opts.initial_audio_sync = true)
    (hwp : m.written_pts = some wp)
    (hsp : sync_pts_of m = some sp)
    (hvid : sync_to_video m = true → PlayStatus.READY.ord ≤ m.video_status.ord)
    (hsc : second_chance_cond m (MPCLAMP (wp - sp) (-3600) 3600) = false) :
    get_sync_samples m =
      (true,
        Int.tdiv
            (c_trunc (-(MPCLAMP (wp - sp) (-3600) 3600) *
              ((m.ao_rate : ℚ) / m.audio_speed)))
            (af_format_sample_alignment m.ao_format) *
          af_format_sample_alignment m.ao_format,
        { m with audio_allow_second_chance_seek := false }) := by
  simp only [get_sync_samples]
  rw [if_neg (by simp [hst])]
  rw [if_neg (by simp [hsync])]
  rw [if_neg (by simp [hwp])]
  rw [if_neg ?hguard]
  case hguard =>
    by_cases hstv : sync_to_video m = true
    · have h2 := hvid hstv
      simp [hstv, Nat.not_lt.2 h2]
    · have hfalse : sync_to_video m = false := by simpa using hstv
      simp [hfalse]
  rw [hsp]
  dsimp only
  rw [hwp]
  dsimp only
  rw [if_neg (by simp [hsc])]

/-- The concrete SYNCING scenario of the claim: video at 10.0 s, written
audio at 9.7 s, 48000 Hz, unit speed, PCM alignment 1, zero audio delay. -/
def c8ex : MPContext :=
  { opts := ⟨true, 0⟩, audio_status := PlayStatus.SYNCING,
    video_status := PlayStatus.PLAYING, ao_rate := 48000, ao_format := 1,
    audio_speed := 1, written_pts := some (97 / 10), ao_buffer_samples := 0,
    has_vo_chain := true, vo_is_coverart := false, video_pts := some 10,
    hrseek_active := false, hrseek_pts := none, playback_pts := none,
    audio_allow_second_chance_seek := false, has_ao_chain := true,
    ao_track_demuxer := none, vo_track_demuxer := none, delay := 0,
    audio_drop_throttle := 0, audio_stat_start := 0 }

/-- Claim C8, amended: outside SYNCING the skip is 0; in SYNCING with a
known written PTS and a known sync PTS (and the second-chance refresh not
taken) the skip is the C truncation of -ptsdiff times the play sample rate,
divided by the alignment with truncation and multiplied back, where ptsdiff
is clamped to the interval from -3600 to 3600; on the concrete scenario the
skip is 14400 samples. -/
theorem c8_get_sync_samples_spec :
    (∀ m : MPContext, m.audio_status ≠ PlayStatus.SYNCING →
      get_sync_samples m = (true, 0, m)) ∧
    (∀ (m : MPContext) (wp sp : ℚ),
      m.audio_status = PlayStatus.SYNCING →
      m.opts.initial_audio_sync = true →
      m.written_pts = some wp →
      sync_pts_of m = some sp →
      (sync_to_video m = true → PlayStatus.READY.ord ≤ m.video_status.ord) →
      second_chance_cond m (MPCLAMP (wp - sp) (-3600) 3600) = false →
      get_sync_samples m =
        (true,
          Int.tdiv
              (c_trunc (-(MPCLAMP (wp - sp) (-3600) 3600) *
                ((m.ao_rate : ℚ) / m.audio_speed)))
              (af_format_sample_alignment m.ao_format) *
            af_format_sample_alignment m.ao_format,
          { m with audio_allow_second_chance_seek := false })) ∧
    get_sync_samples c8ex =
      (true, 14400, { c8ex with audio_allow_second_chance_seek := false }) := by
  refine ⟨?_, get_sync_samples_skip, ?_⟩
  · intro m hst
    simp only [get_sync_samples]
    rw [if_pos hst]
  · have h := get_sync_samples_skip c8ex (97 / 10) 10 rfl rfl rfl
      (by simp [sync_pts_of, sync_to_video, c8ex])
      (fun _ => by decide)
      (by simp [second_chance_cond, c8ex])
    rw [h]
    have e1 : MPCLAMP ((97 : ℚ) / 10 - 10) (-3600) 3600 = -(3 / 10) := by
      norm_num [MPCLAMP, min_def, max_def]
    have e2 : -(-((3 : ℚ) / 10)) * (((48000 : Int) : ℚ) / 1) = 14400 := by
      norm_num
    have e3 : c_trunc 14400 = 14400 := by
      norm_num [c_trunc]
    show (true,
        Int.tdiv (c_trunc (-(MPCLAMP ((97 : ℚ) / 10 - 10) (-3600) 3600) *
          (((48000 : Int) : ℚ) / 1))) 1 * 1,
        _) = _
    rw [e1, e2, e3]
    rfl

/-- The hr-seek SYNCING scenario whose skip separates the C truncation from
mathematical floor: ptsdiff = 1/7 s at 48000 Hz. -/
def c8neg : MPContext :=
  { opts := ⟨true, 0⟩, audio_status := PlayStatus.SYNCING,
    video_status := PlayStatus.EOF, ao_rate := 48000, ao_format := 1,
    audio_speed := 1, written_pts := some (1 / 7), ao_buffer_samples := 0,
    has_vo_chain := false, vo_is_coverart := false, video_pts := none,
    hrseek_active := true, hrseek_pts := some 0, playback_pts := none,
    audio_allow_second_chance_seek := false, has_ao_chain := true,
    ao_track_demuxer := none, vo_track_demuxer := none, delay := 0,
    audio_drop_throttle := 0, audio_stat_start := 0 }

/-- Counterexample to claim C8 as stated: the code computes the skip by
truncation toward zero, which differs from the claimed floor formula on a
negative non-integral skip. -/
theorem c8_counterexample :
    (get_sync_samples c8neg).2.1 = -6857 ∧
    ⌊-((1 : ℚ) / 7) * ((48000 : ℚ) / 1) / 1⌋ * 1 ≠ (-6857 : Int) := by
  constructor
  · have h := get_sync_samples_skip c8neg (1 / 7) 0 rfl rfl rfl
      (by simp [sync_pts_of, sync_to_video, c8neg])
      (by intro hcontra; simp [sync_to_video, c8neg] at hcontra)
      (by simp [second_chance_cond, c8neg])
    rw [h]
    have e1 : MPCLAMP ((1 : ℚ) / 7 - 0) (-3600) 3600 = 1 / 7 := by
      norm_num [MPCLAMP, min_def, max_def]
    have e2 : -((1 : ℚ) / 7) * (((48000 : Int) : ℚ) / 1) = -(48000 / 7) := by
      norm_num
    have e3 : c_trunc (-((48000 : ℚ) / 7)) = -6857 := by
      have hneg : ¬(0 : ℚ) ≤ -((48000 : ℚ) / 7) := by norm_num
      simp only [c_trunc, if_neg hneg]
      rw [Int.ceil_eq_iff]
      norm_num
    show Int.tdiv (c_trunc (-(MPCLAMP ((1 : ℚ) / 7 - 0) (-3600) 3600) *
        (((48000 : Int) : ℚ) / 1))) 1 * 1 = -6857
    rw [e1, e2, e3]
    decide
  · have hfl : ⌊-((1 : ℚ) / 7) * ((48000 : ℚ) / 1) / 1⌋ = -6858 := by
      rw [Int.floor_eq_iff]
      norm_num
    rw [hfl]
    decide

/-- Witness for the amended claim C8 at the concrete 14400-sample skip. -/
theorem c8_witness :
    get_sync_samples c8ex =
      (true, 14400, { c8ex with audio_allow_second_chance_seek := false }) := by
  have h := c8_get_sync_samples_spec.2.1 c8ex (97 / 10) 10 rfl rfl rfl
    (by simp [sync_pts_of, sync_to_video, c8ex])
    (fun _ => by decide)
    (by simp [second_chance_cond, c8ex])
  rw [h]
  have e1 : MPCLAMP ((97 : ℚ) / 10 - 10) (-3600) 3600 = -(3 / 10) := by
    norm_num [MPCLAMP, min_def, max_def]
  have e2 : -(-((3 : ℚ) / 10)) * (((48000 : Int) : ℚ) / 1) = 14400 := by
    norm_num
  have e3 : c_trunc 14400 = 14400 := by
    norm_num [c_trunc]
  show (true,
      Int.tdiv (c_trunc (-(MPCLAMP ((97 : ℚ) / 10 - 10) (-3600) 3600) *
        (((48000 : Int) : ℚ) / 1))) 1 * 1,
      _) = _
  rw [e1, e2, e3]
  rfl
